import Mathlib

/-!
# minimega: VM kill, network connect/disconnect, netspec parsing, CLI handlers

A shallow embedding of `src/minimega/vm.go`, of the handlers `cliClearVmTag`,
`cliVmLaunch`, `cliVMSuggest` and `cliVmHotplug` (the `add` branch) of
`src/minimega/vm_cli.go` and of `checkExternal` of
`src/minimega/external.go`, and the properties the specification states about
them. The tap position that `cliVmNetMod` (`src/minimega/vm_cli.go`) passes on
is the result of `strconv.Atoi`.

Conventions of the embedding

* Go `int` is `Int`; `strconv.Atoi` enforces the 64-bit range explicitly.
* A Go `error` result is a `GoResult`: `nil`, an error carrying its message, or
  a run-time panic (Go aborts the call; the embedding records it as a third
  outcome so that out-of-range indexing and double `close` stay visible).
* Every method runs under `vm.lock` from entry to exit (`defer Unlock`), so in
  this sequential embedding each call is one atomic step on the VM value.
* Functions, constants and types that `vm.go` uses but that live in files
  outside `src/` (bridges, the VLAN allocator, `isMac`, ...) are parameters,
  bundled in `VMStates`, `BridgeEnv`, `NetEnv`, `LaunchEnv`, `NewVMEnv`,
  `ExternalEnv` and `QMPEnv`.
-/

namespace Minimega

/-! ## Data model (`vm.go` lines 40-142) -/

/-- The outcome of a Go function whose only result is an `error`. -/
inductive GoResult where
  | nil : GoResult
  | err (msg : String) : GoResult
  | panicked (msg : String) : GoResult
deriving DecidableEq, Repr

/-- The type `VMState` is a bit mask (`vm.State&VM_KILLABLE`). -/
abbrev VMState := Nat

/-- The type `VMType`: `KVM = 1`, `CONTAINER = 2` (`iota` starting after the blank). -/
abbrev VMType := Nat

/-- The pointer type `*TapStat`: a reference into the shared bandwidth table (`nil` is `none`). -/
abbrev TapStatRef := Nat

/-- The struct `NetConfig` (`vm.go` lines 112-121). -/
structure NetConfig where
  VLAN : Int
  Bridge : String
  Tap : String
  MAC : String
  Driver : String
  IP4 : String
  IP6 : String
  Stats : Option TapStatRef
deriving DecidableEq, Repr

/-- The struct `BaseVM` with its embedded `BaseConfig` (`vm.go` lines 87-98, 127-142);
the field `Type` is spelled `Typ`, `Type` being reserved.
`killClosed` is the state of the channel `vm.kill`: `false` while it is open,
`true` once `close(vm.kill)` has run. -/
structure BaseVM where
  Namespace : String
  Vcpus : String
  Memory : String
  Networks : List NetConfig
  Snapshot : Bool
  UUID : String
  ActiveCC : Bool
  killClosed : Bool
  ID : Int
  Name : String
  State : VMState
  Typ : VMType
  instancePath : String
  Tags : List (String × String)
deriving DecidableEq, Repr

/-- The state constants `vm.go` reads: the `VM_KILLABLE` mask and
`VMState.String` (used by `%v` in the error message of `Kill`). -/
structure VMStates where
  VM_KILLABLE : VMState
  stateString : VMState → String

/-! ## `BaseVM.Kill` (`vm.go` lines 325-340) -/

/-- The message of `fmt.Errorf("invalid VM state to kill: %d %v", vm.ID, vm.State)`. -/
def killErrorMessage (st : VMStates) (vm : BaseVM) : String :=
  "invalid VM state to kill: " ++ toString vm.ID ++ " " ++ st.stateString vm.State

/-- The method `BaseVM.Kill`: the state check, then `close(vm.kill)`. Closing a channel
that is already closed is a run-time panic in Go. -/
def Kill (st : VMStates) (vm : BaseVM) : GoResult × BaseVM :=
  if vm.State &&& st.VM_KILLABLE = 0 then
    (GoResult.err (killErrorMessage st vm), vm)
  else if vm.killClosed then
    (GoResult.panicked "close of closed channel", vm)
  else
    (GoResult.nil, { vm with killClosed := true })

/-- A sequence of `n` calls of `Kill` with nothing in between; the results are
listed in call order and a panic ends the sequence (the goroutine dies). -/
def killSequence (st : VMStates) : Nat → BaseVM → List GoResult × BaseVM
  | 0, vm => ([], vm)
  | n + 1, vm =>
    match Kill st vm with
    | (GoResult.panicked m, vm1) => ([GoResult.panicked m], vm1)
    | (r, vm1) =>
      let rest := killSequence st n vm1
      (r :: rest.1, rest.2)

/-! ## Bridges (`getBridge`, `Bridge.TapRemove`, `Bridge.TapAdd`) -/

/-- The bridge layer as `vm.go` sees it. `W` is the state of the bridges, `B`
a bridge handle (`*Bridge`). Each operation returns its result and the next
state; a `some msg` result of a tap operation is a non-nil `error`. -/
structure BridgeEnv (W B : Type) where
  DisconnectedVLAN : Int
  getBridge : String → W → Except String B × W
  TapRemove : B → String → W → Option String × W
  TapAdd : B → String → Int → Bool → W → Option String × W

/-- One call into the bridge layer, as made by `NetworkConnect` or
`NetworkDisconnect`. -/
inductive BridgeCall (B : Type) where
  | getBridge (name : String) : BridgeCall B
  | TapRemove (b : B) (tap : String) : BridgeCall B
  | TapAdd (b : B) (tap : String) (vlan : Int) (host : Bool) : BridgeCall B
deriving DecidableEq, Repr

/-- What a network call leaves behind: its result, the VM, the bridge state
and the bridge calls it made, in order. -/
structure NetOutcome (W B : Type) where
  result : GoResult
  vm : BaseVM
  world : W
  calls : List (BridgeCall B)

/-- The message of
`fmt.Errorf("no network %v, VM only has %v networks", pos, len(vm.Networks))`. -/
def noNetworkMessage (pos : Int) (n : Nat) : String :=
  "no network " ++ toString pos ++ ", VM only has " ++ toString n ++ " networks"

/-- The message of the run-time panic of `vm.Networks[pos]` with a negative
`pos` (a `pos` beyond the end never reaches the indexing). -/
def indexPanicMessage (pos : Int) : String :=
  "runtime error: index out of range [" ++ toString pos ++ "]"

/-- The indexing `vm.Networks[pos]` with an `int` index: `none` is the run-time
panic of an index out of range. -/
def indexNetworks (xs : List NetConfig) (pos : Int) : Option NetConfig :=
  if pos < 0 then none else xs[pos.toNat]?

/-- Replace the entry at `pos` of the network list (`net := &vm.Networks[pos]`
followed by writes through `net`). -/
def setNetwork (vm : BaseVM) (pos : Nat) (net : NetConfig) : BaseVM :=
  { vm with Networks := vm.Networks.set pos net }

/-! ## `BaseVM.NetworkConnect` (`vm.go` lines 372-415) -/

/-- The method `BaseVM.NetworkConnect(pos, bridge, vlan)`. The result lists the
bridge calls made; the VM is written only on the success path. -/
def NetworkConnect {W B : Type} (env : BridgeEnv W B) (vm : BaseVM) (pos : Int)
    (bridge : String) (vlan : Int) (w : W) : NetOutcome W B :=
  if (vm.Networks.length : Int) ≤ pos then
    ⟨GoResult.err (noNetworkMessage pos vm.Networks.length), vm, w, []⟩
  else
    match indexNetworks vm.Networks pos with
    | none => ⟨GoResult.panicked (indexPanicMessage pos), vm, w, []⟩
    | some net =>
      match env.getBridge bridge w with
      | (Except.error e, w1) => ⟨GoResult.err e, vm, w1, [BridgeCall.getBridge bridge]⟩
      | (Except.ok newBridge, w1) =>
        if net.VLAN ≠ env.DisconnectedVLAN then
          match env.getBridge net.Bridge w1 with
          | (Except.error e, w2) =>
            ⟨GoResult.err e, vm, w2,
              [BridgeCall.getBridge bridge, BridgeCall.getBridge net.Bridge]⟩
          | (Except.ok oldBridge, w2) =>
            match env.TapRemove oldBridge net.Tap w2 with
            | (some e, w3) =>
              ⟨GoResult.err e, vm, w3,
                [BridgeCall.getBridge bridge, BridgeCall.getBridge net.Bridge,
                  BridgeCall.TapRemove oldBridge net.Tap]⟩
            | (none, w3) =>
              match env.TapAdd newBridge net.Tap vlan false w3 with
              | (some e, w4) =>
                ⟨GoResult.err e, vm, w4,
                  [BridgeCall.getBridge bridge, BridgeCall.getBridge net.Bridge,
                    BridgeCall.TapRemove oldBridge net.Tap,
                    BridgeCall.TapAdd newBridge net.Tap vlan false]⟩
              | (none, w4) =>
                ⟨GoResult.nil,
                  setNetwork vm pos.toNat { net with VLAN := vlan, Bridge := bridge }, w4,
                  [BridgeCall.getBridge bridge, BridgeCall.getBridge net.Bridge,
                    BridgeCall.TapRemove oldBridge net.Tap,
                    BridgeCall.TapAdd newBridge net.Tap vlan false]⟩
        else
          match env.TapAdd newBridge net.Tap vlan false w1 with
          | (some e, w4) =>
            ⟨GoResult.err e, vm, w4,
              [BridgeCall.getBridge bridge, BridgeCall.TapAdd newBridge net.Tap vlan false]⟩
          | (none, w4) =>
            ⟨GoResult.nil,
              setNetwork vm pos.toNat { net with VLAN := vlan, Bridge := bridge }, w4,
              [BridgeCall.getBridge bridge, BridgeCall.TapAdd newBridge net.Tap vlan false]⟩

/-! ## `BaseVM.NetworkDisconnect` (`vm.go` lines 417-448) -/

/-- The method `BaseVM.NetworkDisconnect(pos)`. -/
def NetworkDisconnect {W B : Type} (env : BridgeEnv W B) (vm : BaseVM) (pos : Int)
    (w : W) : NetOutcome W B :=
  if (vm.Networks.length : Int) ≤ pos then
    ⟨GoResult.err (noNetworkMessage pos vm.Networks.length), vm, w, []⟩
  else
    match indexNetworks vm.Networks pos with
    | none => ⟨GoResult.panicked (indexPanicMessage pos), vm, w, []⟩
    | some net =>
      if net.VLAN = env.DisconnectedVLAN then
        ⟨GoResult.nil, vm, w, []⟩
      else
        match env.getBridge net.Bridge w with
        | (Except.error e, w1) => ⟨GoResult.err e, vm, w1, [BridgeCall.getBridge net.Bridge]⟩
        | (Except.ok b, w1) =>
          match env.TapRemove b net.Tap w1 with
          | (some e, w2) =>
            ⟨GoResult.err e, vm, w2,
              [BridgeCall.getBridge net.Bridge, BridgeCall.TapRemove b net.Tap]⟩
          | (none, w2) =>
            ⟨GoResult.nil,
              setNetwork vm pos.toNat { net with Bridge := "", VLAN := env.DisconnectedVLAN },
              w2, [BridgeCall.getBridge net.Bridge, BridgeCall.TapRemove b net.Tap]⟩

/-! ## Go library functions used by `processVMNet` -/

/-- The call `strings.Split(s, ",")` on the characters of `s`: the pieces between the
commas, in order; a string without a comma is its own single piece. -/
def splitComma : List Char → List (List Char)
  | [] => [[]]
  | c :: cs =>
    if c = ',' then [] :: splitComma cs
    else
      match splitComma cs with
      | [] => [[c]]
      | piece :: rest => (c :: piece) :: rest

/-- The call `strings.Split(spec, ",")`. -/
def Split (spec : String) : List String :=
  (splitComma spec.toList).map String.mk

/-- The value of a decimal digit (`ch -= '0'; if ch > 9 { syntax error }`). -/
def digitValue (c : Char) : Option Nat :=
  if '0'.toNat ≤ c.toNat ∧ c.toNat ≤ '9'.toNat then some (c.toNat - '0'.toNat) else none

/-- The digit loop of `strconv.ParseUint(s, 10, 64)`, without the range check. -/
def parseDigits : List Char → Nat → Option Nat
  | [], acc => some acc
  | c :: cs, acc =>
    match digitValue c with
    | none => none
    | some d => parseDigits cs (acc * 10 + d)

/-- A non-empty run of decimal digits and its value. -/
def parseUnsigned (cs : List Char) : Option Nat :=
  if cs.isEmpty then none else parseDigits cs 0

/-- The function `strconv.Atoi` with a 64-bit `int`: an optional sign, at least one decimal
digit, nothing else, and the value within `[-2^63, 2^63 - 1]`; `none` stands for
a non-nil `err` (syntax or range). -/
def Atoi (s : String) : Option Int :=
  match s.toList with
  | [] => none
  | '-' :: cs =>
    match parseUnsigned cs with
    | none => none
    | some n => if n ≤ 2 ^ 63 then some (-(n : Int)) else none
  | '+' :: cs =>
    match parseUnsigned cs with
    | none => none
    | some n => if n < 2 ^ 63 then some (n : Int) else none
  | cs =>
    match parseUnsigned cs with
    | none => none
    | some n => if n < 2 ^ 63 then some (n : Int) else none

/-- Whether `sub` occurs in the character list as a contiguous block. -/
def containsChars (sub : List Char) : List Char → Bool
  | [] => sub.isEmpty
  | c :: cs => sub.isPrefixOf (c :: cs) || containsChars sub cs

/-- The function `strings.Join(parts, sep)` (used by `NetConfig.String`, `vm.go` line 295). -/
def Join : List String → String → String
  | [], _ => ""
  | [p], _ => p
  | p :: q :: rest, sep => p ++ sep ++ Join (q :: rest) sep

/-- A token of a comma-separated netspec: a string without a comma. -/
def commaFree (s : String) : Prop := ',' ∉ s.toList

instance (s : String) : Decidable (commaFree s) :=
  inferInstanceAs (Decidable (',' ∉ s.toList))

/-- The function `strings.Contains(s, substr)`. -/
def Contains (s substr : String) : Bool :=
  containsChars substr.toList s.toList

/-! ## `processVMNet` (`vm.go` lines 547-648) -/

/-- What `processVMNet` reads from the rest of the program. `A` is the state of
`allocatedVLANs` (alias table and blacklist). `currentNamespace` is the global
`namespace`; `lowerRune` is `unicode.ToLower`, which `strings.ToLower` maps over
the string. `GetAlias` only reads the allocator. -/
structure NetEnv (A : Type) where
  isMac : String → Bool
  isNetworkDriver : String → Bool
  allocatedMac : String → Bool
  currentNamespace : String
  VLANAliasSep : String
  BlacklistedVLAN : String
  DEFAULT_BRIDGE : String
  lowerRune : Char → Char
  GetOrAllocate : String → A → Int × A
  GetAlias : Int → A → String
  Blacklist : Int → A → A

/-- The constant `VM_NET_DRIVER_DEFAULT` (`vm.go` line 25). -/
def VM_NET_DRIVER_DEFAULT : String := "e1000"

/-- The function `strings.ToLower`: `unicode.ToLower` applied to every character. -/
def ToLower {A : Type} (env : NetEnv A) (s : String) : String :=
  String.mk (s.toList.map env.lowerRune)

/-- One call on `allocatedVLANs`. -/
inductive VLANCall where
  | GetOrAllocate (name : String) : VLANCall
  | GetAlias (vlan : Int) : VLANCall
  | Blacklist (vlan : Int) : VLANCall
deriving DecidableEq, Repr

/-- What a call of `processVMNet` leaves behind: the returned pair (a
`NetConfig`, or the message of the non-nil error), the allocator state, the
lines written with `log.Warn`, and the calls made on the allocator, in order. -/
structure NetSpecOutcome (A : Type) where
  result : Except String NetConfig
  alloc : A
  warnings : List String
  calls : List VLANCall

/-- The `switch len(f)` of `processVMNet`: the tokens `(b, v, m, d)`, or `none`
in the `default` case. -/
def netFields {A : Type} (env : NetEnv A) : List String → Option (String × String × String × String)
  | [f0] => some ("", f0, "", "")
  | [f0, f1] =>
    if env.isMac f1 then some ("", f0, f1, "")
    else if env.isNetworkDriver f1 then some ("", f0, "", f1)
    else some (f0, f1, "", "")
  | [f0, f1, f2] =>
    if env.isMac f2 then some (f0, f1, f2, "")
    else if env.isMac f1 then some ("", f0, f1, f2)
    else some (f0, f1, "", f2)
  | [f0, f1, f2, f3] => some (f0, f1, f2, f3)
  | _ => none

/-- The VLAN step of `processVMNet` (lines 604-624): the tag, the allocator
state, the warnings and the allocator calls. -/
def resolveVLAN {A : Type} (env : NetEnv A) (v : String) (a : A) :
    Int × A × List String × List VLANCall :=
  match Atoi v with
  | none =>
    let v1 := if !Contains v env.VLANAliasSep then
      env.currentNamespace ++ env.VLANAliasSep ++ v else v
    let r := env.GetOrAllocate v1 a
    (r.1, r.2, [], [VLANCall.GetOrAllocate v1])
  | some vlan =>
    let name := env.GetAlias vlan a
    let warns := if name ≠ "" ∧ name ≠ env.BlacklistedVLAN then
      ["VLAN " ++ toString vlan ++ " has alias " ++ name] else []
    (vlan, env.Blacklist vlan a, warns, [VLANCall.GetAlias vlan, VLANCall.Blacklist vlan])

/-- The literal `NetConfig{VLAN: vlan, Bridge: b, MAC: ..., Driver: d}` of lines
642-647: the fields it does not name are zero. -/
def newNetConfig (vlan : Int) (bridge mac driver : String) : NetConfig :=
  { VLAN := vlan, Bridge := bridge, Tap := "", MAC := mac, Driver := driver,
    IP4 := "", IP6 := "", Stats := none }

/-- The function `processVMNet(spec)`: the switch, the driver check, the VLAN
step, the MAC check, the warning for an unregistered MAC, the defaults. Only
`log.Warn` lines are recorded; `log.Debug` output is not modelled. -/
def processVMNet {A : Type} (env : NetEnv A) (spec : String) (a : A) : NetSpecOutcome A :=
  match netFields env (Split spec) with
  | none => ⟨Except.error "malformed netspec", a, [], []⟩
  | some (b, v, m, d) =>
    if d ≠ "" ∧ !env.isNetworkDriver d then
      ⟨Except.error ("malformed netspec, invalid driver: " ++ d), a, [], []⟩
    else
      match resolveVLAN env v a with
      | (vlan, a1, warns, calls) =>
        if m ≠ "" ∧ !env.isMac m then
          ⟨Except.error ("malformed netspec, invalid mac address: " ++ m), a1, warns, calls⟩
        else
          let warns1 := if m ≠ "" ∧ !env.allocatedMac m then
            warns ++ ["unallocated mac address: " ++ m] else warns
          ⟨Except.ok (newNetConfig vlan
              (if b = "" then env.DEFAULT_BRIDGE else b)
              (ToLower env m)
              (if d = "" then VM_NET_DRIVER_DEFAULT else d)),
            a1, warns1, calls⟩

/-- The alias that the VLAN step hands to the allocator (lines 609-611): a
token without the separator is qualified with the current namespace. -/
def qualifyAlias {A : Type} (env : NetEnv A) (v : String) : String :=
  if !Contains v env.VLANAliasSep then env.currentNamespace ++ env.VLANAliasSep ++ v else v

/-! ## Concrete instances of the parameters

The theorems below hold for every instance of `VMStates`, `BridgeEnv` and
`NetEnv`. The instances here are used to evaluate the code on concrete inputs. -/

/-- Modelled from the spec: the state constants, which are declared outside
`src/`. Section 3 lists the bit-mask states BUILDING, RUNNING, PAUSED,
QUITTING, QUIT, ERROR (one bit each, in this order) and the composite mask
KILLABLE = BUILDING, RUNNING, PAUSED, QUITTING. -/
def VM_BUILDING : VMState := 1

/-- Modelled from the spec: the state constant RUNNING (second bit). -/
def VM_RUNNING : VMState := 2

/-- Modelled from the spec: the state constant PAUSED (third bit). -/
def VM_PAUSED : VMState := 4

/-- Modelled from the spec: the state constant QUITTING (fourth bit). -/
def VM_QUITTING : VMState := 8

/-- Modelled from the spec: the state constant QUIT (fifth bit). -/
def VM_QUIT : VMState := 16

/-- Modelled from the spec: the state constant ERROR (sixth bit). -/
def VM_ERROR : VMState := 32

/-- Modelled from the spec: the KILLABLE mask and the state names. -/
def specStates : VMStates where
  VM_KILLABLE := VM_BUILDING ||| VM_RUNNING ||| VM_PAUSED ||| VM_QUITTING
  stateString := fun s =>
    if s = VM_BUILDING then "BUILDING"
    else if s = VM_RUNNING then "RUNNING"
    else if s = VM_PAUSED then "PAUSED"
    else if s = VM_QUITTING then "QUITTING"
    else if s = VM_QUIT then "QUIT"
    else if s = VM_ERROR then "ERROR"
    else toString s

/-- One tap on one bridge, at a VLAN. -/
structure Attachment where
  bridge : String
  tap : String
  vlan : Int
deriving DecidableEq, Repr

/-- Modelled from the spec: the state of the bridge layer, which lives outside
`src/`. The glossary calls a bridge a virtual switch and a tap an interface
attached to one bridge at a time; section 4.3 lets a bridge fail to resolve and
an attach fail. `bridges` are the names that resolve, `taps` the attachments,
`refusing` the bridges on which an attach fails. -/
structure BridgeWorld where
  bridges : List String
  taps : List Attachment
  refusing : List String
deriving DecidableEq, Repr

/-- Modelled from the spec: `getBridge`, `TapRemove` and `TapAdd` over
`BridgeWorld`, with the bridge name as the handle. A name resolves when it is
a known bridge; detaching removes the attachment of the tap on that bridge and
fails when there is none; attaching records the tap at the VLAN and fails on a
refusing bridge, attaching nothing. -/
def specBridges : BridgeEnv BridgeWorld String where
  DisconnectedVLAN := -1
  getBridge := fun name w =>
    if name ∈ w.bridges then (Except.ok name, w)
    else (Except.error ("bridge not found: " ++ name), w)
  TapRemove := fun b tap w =>
    if w.taps.any (fun a => a.bridge = b ∧ a.tap = tap) then
      (none, { w with taps := w.taps.filter (fun a => ¬(a.bridge = b ∧ a.tap = tap)) })
    else (some ("tap not found: " ++ tap), w)
  TapAdd := fun b tap vlan _ w =>
    if b ∈ w.refusing then (some ("cannot add tap to bridge: " ++ b), w)
    else (none, { w with taps := w.taps ++ [⟨b, tap, vlan⟩] })

/-- Whether the tap is attached to the bridge in a `BridgeWorld`. -/
def specAttached (w : BridgeWorld) (b tap : String) : Prop :=
  ∃ a ∈ w.taps, a.bridge = b ∧ a.tap = tap

/-- Modelled from the spec: what the bridge operations do to the attachments
(glossary: a tap is attached to a bridge; detach removes it). Resolving a bridge
attaches and detaches nothing, a successful `TapRemove` detaches exactly that
tap from exactly that bridge, and a failed `TapAdd` attaches nothing. -/
structure BridgeLaws {W B : Type} (env : BridgeEnv W B) (attached : W → B → String → Prop) :
    Prop where
  getBridge_frame : ∀ name w b t, attached (env.getBridge name w).2 b t ↔ attached w b t
  tapRemove_ok : ∀ b t w w1, env.TapRemove b t w = (none, w1) →
    ∀ b1 t1, attached w1 b1 t1 ↔ (attached w b1 t1 ∧ ¬(b1 = b ∧ t1 = t))
  tapAdd_failed : ∀ b t v h w e w1, env.TapAdd b t v h w = (some e, w1) →
    ∀ b1 t1, attached w1 b1 t1 ↔ attached w b1 t1

/-- Modelled from the spec: the VLAN allocator state (alias table and
blacklist, section 5), declared outside `src/`. -/
structure AllocatedVLANs where
  byAlias : List (String × Int)
  blacklist : List Int
deriving DecidableEq, Repr

/-- The tag a new alias gets: one above every tag handed out so far, and at
least 2. -/
def AllocatedVLANs.fresh (a : AllocatedVLANs) : Int :=
  (a.blacklist ++ a.byAlias.map Prod.snd).foldl max 1 + 1

/-- A hexadecimal digit. -/
def isHexDigit (c : Char) : Bool :=
  c.isDigit || ('a' ≤ c && c ≤ 'f') || ('A' ≤ c && c ≤ 'F')

/-- The shape of a MAC address: `n` groups of two hexadecimal digits separated
by a colon or a dash. -/
def macGroups : Nat → List Char → Bool
  | 0, _ => false
  | 1, cs =>
    match cs with
    | [x, y] => isHexDigit x && isHexDigit y
    | _ => false
  | n + 2, cs =>
    match cs with
    | x :: y :: sep :: rest =>
      isHexDigit x && isHexDigit y && (sep = ':' || sep = '-') && macGroups (n + 1) rest
    | _ => false

/-- Modelled from the spec: an instance of what `processVMNet` reads, for
evaluating it. A token looks like a MAC address when it is six groups of two
hexadecimal digits; the recognised drivers are a fixed list; no MAC is
registered; the namespace is empty and aliases are qualified with `//`; the
allocator resolves an alias get-or-create, hands out fresh tags and blacklists
every tag it hands out or is told to blacklist (section 4.3). -/
def specNetEnv : NetEnv AllocatedVLANs where
  isMac := fun m => macGroups 6 m.toList
  isNetworkDriver := fun d => d ∈ ["e1000", "virtio-net-pci", "rtl8139"]
  allocatedMac := fun _ => false
  currentNamespace := ""
  VLANAliasSep := "//"
  BlacklistedVLAN := "BLACKLISTED"
  DEFAULT_BRIDGE := "mega_bridge"
  lowerRune := Char.toLower
  GetOrAllocate := fun name a =>
    match a.byAlias.lookup name with
    | some n => (n, a)
    | none => (a.fresh, { byAlias := a.byAlias ++ [(name, a.fresh)],
                          blacklist := a.blacklist ++ [a.fresh] })
  GetAlias := fun n a =>
    match a.byAlias.find? (fun p => p.2 = n) with
    | some p => p.1
    | none => if n ∈ a.blacklist then "BLACKLISTED" else ""
  Blacklist := fun n a =>
    if n ∈ a.blacklist then a else { a with blacklist := a.blacklist ++ [n] }

/-- A VM with two network entries: the first connected to `br0` at VLAN 100,
the second disconnected. -/
def sampleVM : BaseVM where
  Namespace := ""
  Vcpus := "1"
  Memory := "2048"
  Networks := [
    { VLAN := 100, Bridge := "br0", Tap := "tap0", MAC := "00:11:22:33:44:55",
      Driver := "e1000", IP4 := "", IP6 := "", Stats := none },
    { VLAN := -1, Bridge := "", Tap := "tap1", MAC := "00:11:22:33:44:66",
      Driver := "e1000", IP4 := "", IP6 := "", Stats := none }]
  Snapshot := true
  UUID := "a5e980ca-a079-4b9d-8b2c-3b6a0e1e7b51"
  ActiveCC := false
  killClosed := false
  ID := 0
  Name := "vm-0"
  State := VM_RUNNING
  Typ := 1
  instancePath := "/tmp/minimega/0"
  Tags := []

/-- A bridge state in which `br0` and `br1` resolve, `tap0` sits on `br0` at
VLAN 100, and `br1` refuses attaches. -/
def sampleWorld : BridgeWorld where
  bridges := ["br0", "br1", "br2"]
  taps := [⟨"br0", "tap0", 100⟩]
  refusing := ["br1"]

/-! ## Not-found errors (`vm.go` lines 527-545) -/

/-- The function `strings.HasPrefix(s, prefix)`. -/
def HasPrefix (s pre : String) : Bool :=
  pre.toList.isPrefixOf s.toList

/-- The message of the error built by `vmNotFound(idOrName)`; `%v` of a
string is the string. -/
def vmNotFound (idOrName : String) : String :=
  "vm not found: " ++ idOrName

/-- The recogniser `isVmNotFound(err)`. -/
def isVmNotFound (err : String) : Bool :=
  HasPrefix err "vm not found: "

/-- The message of the error built by `vmNotRunning(idOrName)`. -/
def vmNotRunning (idOrName : String) : String :=
  "vm not running: " ++ idOrName

/-- The message of the error built by `vmNotPhotogenic(idOrName)`. -/
def vmNotPhotogenic (idOrName : String) : String :=
  "vm does not support screenshots: " ++ idOrName

/-- The message of the error built by `vmNotKVM(idOrName)`. -/
def vmNotKVM (idOrName : String) : String :=
  "vm is not a KVM: " ++ idOrName

/-! ## `globalVMs` (`vm.go` lines 650-683) -/

/-- The type `VMs` (declared outside `src/`): the VMs of one host. -/
abbrev VMs := List BaseVM

/-- The field `Data interface{}` of a response, by the cases that the type
assertion `resp.Data.(VMs)` tells apart: no payload, a `VMs` payload, or a
payload of another type. -/
inductive ResponseData where
  | absent : ResponseData
  | vms (v : VMs) : ResponseData
  | other (description : String) : ResponseData
deriving DecidableEq, Repr

set_option linter.dupNamespace false in
/-- The struct `minicli.Response` (`minicli.go` lines 30-37). -/
structure Response where
  Host : String
  Response : String
  Header : List String
  Tabular : List (List String)
  Error : String
  Data : ResponseData
deriving DecidableEq, Repr

/-- The map `map[string]VMs`: a key is present when its value is `some`. -/
abbrev HostVMs := String → Option VMs

/-- The statement `res[host] = vms`. -/
def HostVMs.set (res : HostVMs) (host : String) (vms : VMs) : HostVMs :=
  fun h => if h = host then some vms else res h

/-- The body of the inner loop of `globalVMs` on the map: a response with an
error is skipped, a `VMs` payload is stored under the host, anything else is
only logged. -/
def recordResponse (res : HostVMs) (resp : Response) : HostVMs :=
  if resp.Error ≠ "" then res
  else
    match resp.Data with
    | ResponseData.vms v => res.set resp.Host v
    | _ => res

/-- The lines that the inner loop of `globalVMs` logs for one response. -/
def logResponse (resp : Response) : List String :=
  if resp.Error ≠ "" then [resp.Error]
  else
    match resp.Data with
    | ResponseData.vms _ => []
    | _ => ["unknown data field in vm info"]

/-- The two nested loops of `globalVMs` over the batches that
`processCommands` delivers, starting from the empty map. -/
def collectVMs (batches : List (List Response)) : HostVMs :=
  batches.flatten.foldl recordResponse (fun _ => none)

/-- What happens to `cmdLock` and to the mesh during a call, in order. -/
inductive CmdEvent where
  | Lock : CmdEvent
  | Query : CmdEvent
  | Unlock : CmdEvent
deriving DecidableEq, Repr

/-- What a call of `globalVMs` leaves behind. `returned` is the map, or `none`
when the call never returns because `cmdLock.Lock()` blocks on a lock that
is held; `lockHeld` is the state of `cmdLock` afterwards. -/
structure GlobalVMsOutcome where
  returned : Option HostVMs
  lockHeld : Bool
  events : List CmdEvent
  log : List String

/-- The function `globalVMs(hasLock)`. `lockHeld` is the state of `cmdLock` at
the call and `batches` what `processCommands` delivers for the `vm info` query
sent to the broadcast recipients and the local node. -/
def globalVMs (hasLock : Bool) (lockHeld : Bool) (batches : List (List Response)) :
    GlobalVMsOutcome :=
  if !hasLock then
    if lockHeld then
      ⟨none, lockHeld, [], []⟩
    else
      ⟨some (collectVMs batches), false,
        [CmdEvent.Lock, CmdEvent.Query, CmdEvent.Unlock], batches.flatten.flatMap logResponse⟩
  else
    ⟨some (collectVMs batches), lockHeld, [CmdEvent.Query], batches.flatten.flatMap logResponse⟩

/-- The `VMs` payload that a response contributes for a host, if any: the
response is from that host, has an empty `Error` and carries `VMs`. -/
def goodPayload (host : String) (resp : Response) : Option VMs :=
  if resp.Host = host ∧ resp.Error = "" then
    match resp.Data with
    | ResponseData.vms v => some v
    | _ => none
  else none

/-- The payload of the last response in the list that contributes one for the
host, if any. -/
def lastGood (host : String) : List Response → Option VMs
  | [] => none
  | r :: rest =>
    match lastGood host rest with
    | some v => some v
    | none => goodPayload host r

/-! ## CLI handlers (`vm_cli.go`) -/

/-- The argument map `c.StringArgs` of a command: `map[string]string`, looked
up by key. For a command matching a pattern, `minicli` binds each `<foo>` and
each supplied `[foo]` under the key `foo` (`minicli.go` lines 39-52). -/
abbrev StringArgs := List (String × String)

/-- The argument map `c.BoolArgs`: `map[string]bool`. -/
abbrev BoolArgs := List (String × Bool)

/-- One call on the registry `vms` made by a handler. -/
inductive VMsCall where
  | ClearTags (target key : String) : VMsCall
  | Launch (names : List String) (vmType : VMType) : VMsCall
deriving DecidableEq, Repr

/-- The handler `cliClearVmTag` (`vm_cli.go` lines 569-585): its result and the
call it makes on `vms`. `Wildcard` is the wildcard constant. -/
def cliClearVmTag (Wildcard : String) (args : StringArgs) : GoResult × List VMsCall :=
  let key := match args.lookup "key" with
    | some k => k
    | none => Wildcard
  let target := match args.lookup "target" with
    | some t => t
    | none => Wildcard
  (GoResult.nil, [VMsCall.ClearTags target key])

/-- The function `ParseVMType` (`vm.go` lines 209-218); `none` is the error
`invalid VMType`. -/
def ParseVMType (s : String) : Option VMType :=
  if s = "kvm" then some 1
  else if s = "container" then some 2
  else none

/-- The function `findVMType` (`vm.go` lines 222-230): the first key, in the
order of the iteration over the map, that parses as a VM type. -/
def findVMType : BoolArgs → Option VMType
  | [] => none
  | (k, _) :: rest =>
    match ParseVMType k with
    | some t => some t
    | none => findVMType rest

/-- A command as `cliVmLaunch` reads it. -/
structure Command where
  Original : String
  StringArgs : StringArgs
  BoolArgs : BoolArgs
  Source : String

/-- What `cliVmLaunch` reads from the rest of the program: the active
namespace (`GetNamespace()`, `none` for `nil`, else its name), `isReserved`,
the result of `ExpandLaunchNames` on the name argument (a list of names or the
message of an error), and the staged `vmConfig.UUID`. -/
structure LaunchEnv where
  activeNamespace : Option String
  isReserved : String → Bool
  ExpandLaunchNames : String → Except String (List String)
  stagedUUID : String

/-- How a call of `cliVmLaunch` ends. `failed` is an error returned before
anything is created; `queued` and `namespaceLaunch` hand over to the namespace
(`ns.Queue`, `ns.Launch`); `launch` is the call `vms.Launch(names, vmType)`,
the only place of the handler where VMs are created and IDs drawn. -/
inductive LaunchStep where
  | failed (msg : String) : LaunchStep
  | queued (arg : String) (vmType : VMType) : LaunchStep
  | namespaceLaunch : LaunchStep
  | launch (names : List String) (vmType : VMType) (noblock : Bool) : LaunchStep
deriving DecidableEq, Repr

/-- The checks of one name in the loop of `cliVmLaunch` (lines 622-636); `i`
is the position of the name in `names`. The result is the error message, or
`none` when the name passes. -/
def checkLaunchName (isReserved : String → Bool) (names : List String) (i : Nat)
    (name : String) : Option String :=
  if isReserved name then
    some ("`" ++ name ++ "` is a reserved word -- cannot use for vm name")
  else if (Atoi name).isSome then
    some ("`" ++ name ++ "` is an integer -- cannot use for vm name")
  else if names.enum.any (fun jn => i ≠ jn.1 ∧ name = jn.2 ∧ name ≠ "") then
    some ("`" ++ name ++ "` is specified twice in VMs to launch")
  else none

/-- The loop over the names, from position `i` on: the first error met. -/
def checkLaunchNamesFrom (isReserved : String → Bool) (names : List String) :
    Nat → List String → Option String
  | _, [] => none
  | i, name :: rest =>
    match checkLaunchName isReserved names i name with
    | some e => some e
    | none => checkLaunchNamesFrom isReserved names (i + 1) rest

/-- The loop `for i, name := range names` of `cliVmLaunch`. -/
def checkLaunchNames (isReserved : String → Bool) (names : List String) : Option String :=
  checkLaunchNamesFrom isReserved names 0 names

/-- The value `m[key]` of a Go map with the zero value for a missing key. -/
def lookupString (args : StringArgs) (key : String) : String :=
  match args.lookup key with
  | some v => v
  | none => ""

/-- The handler `cliVmLaunch` (`vm_cli.go` lines 587-669), up to the call of
`vms.Launch`. -/
def cliVmLaunch (env : LaunchEnv) (c : Command) : LaunchStep :=
  if env.activeNamespace = none ∧ c.StringArgs.length = 0 then
    LaunchStep.failed "invalid command when namespace is not active"
  else if env.activeNamespace ≠ none ∧ env.activeNamespace ≠ some c.Source then
    if c.StringArgs.length > 0 then
      match findVMType c.BoolArgs with
      | none => LaunchStep.failed "invalid VMType"
      | some vmType => LaunchStep.queued (lookupString c.StringArgs "name") vmType
    else LaunchStep.namespaceLaunch
  else
    match env.ExpandLaunchNames (lookupString c.StringArgs "name") with
    | Except.error e => LaunchStep.failed e
    | Except.ok names =>
      if names.length > 1 ∧ env.stagedUUID ≠ "" then
        LaunchStep.failed "cannot launch multiple VMs with a pre-configured UUID"
      else
        match checkLaunchNames env.isReserved names with
        | some e => LaunchStep.failed e
        | none =>
          match findVMType c.BoolArgs with
          | none => LaunchStep.failed "invalid VMType"
          | some vmType =>
            LaunchStep.launch names vmType
              (match c.BoolArgs.lookup "noblock" with
                | some v => v
                | none => false)

/-- An instance of what `cliVmLaunch` reads, for evaluating it: no active
namespace, the wildcard `all` as the only reserved word, no staged UUID, and a
name argument that expands to its comma-separated parts. -/
def sampleLaunchEnv : LaunchEnv where
  activeNamespace := none
  isReserved := fun s => s = "all"
  ExpandLaunchNames := fun s => Except.ok (Split s)
  stagedUUID := ""

/-! ## `NewVM` and `BaseConfig.Copy` (`vm.go` lines 168-196, 244-255) -/

/-- The struct `BaseConfig` (`vm.go` lines 87-98), the staged configuration. -/
structure BaseConfig where
  Namespace : String
  Vcpus : String
  Memory : String
  Networks : List NetConfig
  Snapshot : Bool
  UUID : String
  ActiveCC : Bool
deriving DecidableEq, Repr

/-- The zero value of `NetConfig`, the content of a slice made by `make`. -/
def zeroNetConfig : NetConfig :=
  { VLAN := 0, Bridge := "", Tap := "", MAC := "", Driver := "", IP4 := "", IP6 := "",
    Stats := none }

/-- The built-in `copy(dst, src)`: the first `min(len(dst), len(src))` elements
of `dst` are overwritten with those of `src`. -/
def goCopy (dst src : List NetConfig) : List NetConfig :=
  src.take dst.length ++ dst.drop src.length

/-- The method `BaseConfig.Copy`: all fields are copied and the network slice is
rebuilt with `make` and `copy`. -/
def BaseConfig.Copy (old : BaseConfig) : BaseConfig :=
  { old with
    Networks := goCopy (List.replicate old.Networks.length zeroNetConfig) old.Networks }

/-- The function `strconv.Itoa`. -/
def Itoa (i : Int) : String := toString i

/-- What `NewVM` reads from the rest of the program. `S` is the state of the ID
channel `vmIdChan` and `receiveID` the receive `<-vmIdChan`; `G` is the state
of the UUID generator; `filepathJoin` is `filepath.Join` on two elements;
`f_base` is the base directory flag; `currentNamespace` the global
`namespace`. -/
structure NewVMEnv (S G : Type) where
  receiveID : S → Int × S
  generateUUID : G → String × G
  filepathJoin : String → String → String
  f_base : String
  currentNamespace : String
  VM_BUILDING : VMState

/-- The function `NewVM(name)`: the new VM and the states of the ID channel and
of the UUID generator afterwards. `vmConfig` is the staged `vmConfig.BaseConfig`.
The kill channel is freshly made (open) and `Type` is left at its zero value. -/
def NewVM {S G : Type} (env : NewVMEnv S G) (vmConfig : BaseConfig) (name : String)
    (ids : S) (g : G) : BaseVM × S × G :=
  let cfg := vmConfig.Copy
  let r := env.receiveID ids
  let id := r.1
  let u := if cfg.UUID = "" then env.generateUUID g else (cfg.UUID, g)
  ({ Namespace := env.currentNamespace
     Vcpus := cfg.Vcpus
     Memory := cfg.Memory
     Networks := cfg.Networks
     Snapshot := cfg.Snapshot
     UUID := u.1
     ActiveCC := cfg.ActiveCC
     killClosed := false
     ID := id
     Name := if name = "" then "vm-" ++ Itoa id else name
     State := env.VM_BUILDING
     Typ := 0
     instancePath := env.filepathJoin env.f_base (Itoa id)
     Tags := [] },
   r.2, u.2)

/-! ## External dependencies (`external.go`) -/

/-- A version number as `checkExternal` handles it. The code holds it in a
`float64` obtained by `strconv.ParseFloat` from the text `major.minor` (or
from the literal of a constant); a `Version` is that decimal numeral,
`mantissa / 10 ^ digits`, and `roundFloat64` is the `float64` it is read as.
A numeral beyond the range of `float64` makes `strconv.ParseFloat` fail, so the
version functions return an error for it and no version. -/
structure Version where
  mantissa : Nat
  digits : Nat
deriving DecidableEq, Repr

/-- The floor of the logarithm of `n` to the base `b`, by repeated division;
`fuel` bounds the number of divisions. -/
def floorLogFuel (b : Nat) : Nat → Nat → Nat
  | 0, _ => 0
  | fuel + 1, n => if n ≥ b then floorLogFuel b fuel (n / b) + 1 else 0

/-- The floor of the logarithm of `n` to the base `b`, for `n` at least 1. -/
def floorLog (b n : Nat) : Nat := floorLogFuel b n n

/-- The floor of the logarithm of the fraction `p / r` to the base `b`, for
positive `p` and `r`. -/
def floorLogRatio (b p r : Nat) : Int :=
  if p ≥ r then (floorLog b (p / r) : Int)
  else -((floorLog b ((r - 1) / p) + 1 : Nat) : Int)

/-- The `float64` nearest to a decimal numeral, as `strconv.ParseFloat` returns
it: the pair `(n, x)` stands for `n * 2 ^ x` with `n` at most `2 ^ 53`. The
binary exponent is that of the numeral, not below that of the subnormal
numbers, and the 53-bit significand is rounded to nearest, ties to even. -/
def roundFloat64 (v : Version) : Nat × Int :=
  if v.mantissa = 0 then (0, 0)
  else
    let r := 10 ^ v.digits
    let e := max (floorLogRatio 2 v.mantissa r) (-1022)
    let s := 52 - e
    let num := if 0 ≤ s then v.mantissa * 2 ^ s.toNat else v.mantissa
    let den := if 0 ≤ s then r else r * 2 ^ (-s).toNat
    let qt := num / den
    let rem := num % den
    (if 2 * rem > den ∨ (2 * rem = den ∧ qt % 2 = 1) then qt + 1 else qt, e - 52)

/-- The comparison `a < b` of two `float64` values given as `n * 2 ^ x`. -/
def float64Lt (a b : Nat × Int) : Bool :=
  a.1 * 2 ^ (a.2 - min a.2 b.2).toNat < b.1 * 2 ^ (b.2 - min a.2 b.2).toNat

/-- The equality of two `float64` values given as `n * 2 ^ x`. -/
def float64Eq (a b : Nat × Int) : Bool :=
  a.1 * 2 ^ (a.2 - min a.2 b.2).toNat = b.1 * 2 ^ (b.2 - min a.2 b.2).toNat

/-- The comparison `a < b` of two versions: the comparison of the `float64`
values they are read as. -/
def Version.lt (a b : Version) : Bool :=
  float64Lt (roundFloat64 a) (roundFloat64 b)

/-- The constant `MIN_QEMU = 1.6` (`external.go` line 21). -/
def MIN_QEMU : Version := ⟨16, 1⟩

/-- The constant `MIN_OVS = 1.4` (`external.go` line 22). -/
def MIN_OVS : Version := ⟨14, 1⟩

/-- The constant `MIN_DNSMASQ = 2.73` (`external.go` line 23). -/
def MIN_DNSMASQ : Version := ⟨273, 2⟩

/-- The map `defaultExternalProcesses` (`external.go` lines 32-54). -/
def defaultExternalProcesses : List (String × String) :=
  [("qemu", "kvm"), ("ip", "ip"), ("ovs", "ovs-vsctl"), ("dnsmasq", "dnsmasq"),
   ("kill", "kill"), ("dhcp", "dhclient"), ("openflow", "ovs-ofctl"), ("mount", "mount"),
   ("umount", "umount"), ("mkdosfs", "mkdosfs"), ("qemu-nbd", "qemu-nbd"), ("rm", "rm"),
   ("qemu-img", "qemu-img"), ("cp", "cp"), ("taskset", "taskset"), ("lsmod", "lsmod"),
   ("ntfs-3g", "ntfs-3g"), ("scp", "scp"), ("ssh", "ssh"), ("hostname", "hostname"),
   ("tc", "tc")]

/-- What `checkExternal` reads from the machine: the custom overrides, the
result of `exec.LookPath` for a binary (the path, or the message of the error),
the results of `qemuVersion`, `ovsVersion` and `dnsmasqVersion` (which run the
binary and parse its output), and how `%v` prints a version. -/
structure ExternalEnv where
  customExternalProcesses : List (String × String)
  LookPath : String → Except String String
  qemuVersion : Except String Version
  ovsVersion : Except String Version
  dnsmasqVersion : Except String Version
  formatVersion : Version → String

/-- The binary that `checkProcesses` looks up for an entry of the default map:
the custom override of the name when there is one. -/
def resolveProcess (env : ExternalEnv) (entry : String × String) : String :=
  match env.customExternalProcesses.lookup entry.1 with
  | some alt => alt
  | none => entry.2

/-- The slice `errs` that the loop of `checkProcesses` builds. `order` is the
order in which this run iterates over `defaultExternalProcesses` (Go leaves the
iteration order of a map unspecified). -/
def missingProcesses (env : ExternalEnv) : List (String × String) → List String
  | [] => []
  | entry :: rest =>
    match env.LookPath (resolveProcess env entry) with
    | Except.error e => e :: missingProcesses env rest
    | Except.ok _ => missingProcesses env rest

/-- The function `checkProcesses` (`external.go` lines 130-153). -/
def checkProcesses (env : ExternalEnv) (order : List (String × String)) : GoResult :=
  if (missingProcesses env order).length > 0 then
    GoResult.err (Join (missingProcesses env order) "\n")
  else GoResult.nil

/-- The message of a version below its minimum
(`"%v version %v does not meet minimum version %v"`). -/
def versionMessage (env : ExternalEnv) (name : String) (version minimum : Version) : String :=
  name ++ " version " ++ env.formatVersion version ++ " does not meet minimum version "
    ++ env.formatVersion minimum

/-- One version check of `checkExternal`: the error of the version function,
or the below-minimum error, or `nil`. -/
def checkVersion (env : ExternalEnv) (name : String) (version : Except String Version)
    (minimum : Version) : GoResult :=
  match version with
  | Except.error e => GoResult.err e
  | Except.ok v =>
    if v.lt minimum then GoResult.err (versionMessage env name v minimum) else GoResult.nil

/-- The function `checkExternal` (`external.go` lines 89-127): every step
returns at once on an error. -/
def checkExternal (env : ExternalEnv) (order : List (String × String)) : GoResult :=
  match checkProcesses env order with
  | GoResult.nil =>
    match checkVersion env "kvm" env.qemuVersion MIN_QEMU with
    | GoResult.nil =>
      match checkVersion env "ovs" env.ovsVersion MIN_OVS with
      | GoResult.nil => checkVersion env "dnsmasq" env.dnsmasqVersion MIN_DNSMASQ
      | e => e
    | e => e
  | e => e

/-- The decimal `d * 10 ^ k` as a numeral. -/
def decimalOf (d : Nat) (k : Int) : Version :=
  if 0 ≤ k then ⟨d * 10 ^ k.toNat, 0⟩ else ⟨d, (-k).toNat⟩

/-- The decimal `d * 10 ^ k` with `nd` significant digits that is nearest to
the `float64` value `x` and reads back as `x`, if there is one; `dexp` is the
decimal exponent of `x`. The two decimals next to `x` are tried; when both read
back as `x` the nearer one is taken. -/
def tryDigits (x : Nat × Int) (dexp : Int) (nd : Nat) : Option (Nat × Int) :=
  let p := if 0 ≤ x.2 then x.1 * 2 ^ x.2.toNat else x.1
  let q := if 0 ≤ x.2 then 1 else 2 ^ (-x.2).toNat
  let k := dexp - ((nd : Int) - 1)
  let num := if 0 ≤ k then p else p * 10 ^ (-k).toNat
  let den := if 0 ≤ k then q * 10 ^ k.toNat else q
  let lo := num / den
  let rem := num % den
  if rem = 0 then some (lo, k)
  else
    let okLo := float64Eq (roundFloat64 (decimalOf lo k)) x
    let okHi := float64Eq (roundFloat64 (decimalOf (lo + 1) k)) x
    let preferHi := 2 * rem > den ∨ (2 * rem = den ∧ lo % 2 = 1)
    if okLo ∧ okHi then (if preferHi then some (lo + 1, k) else some (lo, k))
    else if okLo then some (lo, k)
    else if okHi then some (lo + 1, k)
    else none

/-- The shortest decimal that reads back as the `float64` value `x`
(`strconv.FormatFloat` with precision -1): the digit counts from `nd` on are
tried in turn; 17 digits always suffice. -/
def shortestDigits (x : Nat × Int) (dexp : Int) : Nat → Nat → Nat × Int
  | 0, nd =>
    match tryDigits x dexp nd with
    | some r => r
    | none => (0, 0)
  | fuel + 1, nd =>
    match tryDigits x dexp nd with
    | some r => r
    | none => shortestDigits x dexp fuel (nd + 1)

/-- The decimal `d * 10 ^ k` without trailing zeros in `d`. -/
def stripZeros : Nat → Nat → Int → Nat × Int
  | 0, d, k => (d, k)
  | fuel + 1, d, k =>
    if d ≠ 0 ∧ d % 10 = 0 then stripZeros fuel (d / 10) (k + 1) else (d, k)

/-- The printing of a non-negative `float64` with `%v`, that is `%g` with the
shortest digits that read back as the value: exponent notation when the decimal
exponent is below -4 or at least 6 (at least two exponent digits), plain
notation otherwise. -/
def formatFloat64 (x : Nat × Int) : String :=
  if x.1 = 0 then "0"
  else
    let p := if 0 ≤ x.2 then x.1 * 2 ^ x.2.toNat else x.1
    let q := if 0 ≤ x.2 then 1 else 2 ^ (-x.2).toNat
    let r := shortestDigits x (floorLogRatio 10 p q) 16 1
    let s := stripZeros 400 r.1 r.2
    let ds := (toString s.1).toList
    let nd := ds.length
    let dp : Int := (nd : Int) + s.2
    let e := dp - 1
    if e < -4 ∨ e ≥ 6 then
      String.mk (ds.take 1) ++ (if nd > 1 then "." ++ String.mk (ds.drop 1) else "")
        ++ "e" ++ (if e < 0 then "-" else "+")
        ++ (if e.natAbs < 10 then "0" else "") ++ toString e.natAbs
    else if dp ≤ 0 then "0." ++ String.mk (List.replicate (-dp).toNat '0') ++ String.mk ds
    else if dp ≥ nd then String.mk ds ++ String.mk (List.replicate (dp - nd).toNat '0')
    else String.mk (ds.take dp.toNat) ++ "." ++ String.mk (ds.drop dp.toNat)

/-- The printing of a version with `%v`: the printing of the `float64` it is
read as. -/
def formatDecimal (v : Version) : String :=
  formatFloat64 (roundFloat64 v)

/-- A machine on which every binary is found, and kvm and ovs are both older
than their minimum versions (1.0 and 1.0; dnsmasq is 2.76). -/
def oldVersionsEnv : ExternalEnv where
  customExternalProcesses := []
  LookPath := fun p => Except.ok ("/usr/bin/" ++ p)
  qemuVersion := Except.ok ⟨10, 1⟩
  ovsVersion := Except.ok ⟨10, 1⟩
  dnsmasqVersion := Except.ok ⟨276, 2⟩
  formatVersion := formatDecimal

/-! ## `cliVMSuggest` (`vm_cli.go` lines 848-877) -/

/-- The loop of `cliVMSuggest` over the VMs returned by `GlobalVMs()`, in the
order of the iteration: a VM whose state misses the mask is skipped; otherwise
the decimal ID (when `isID`) or the name is appended when it starts with the
typed text `pre`. -/
def suggestLoop (isID : Bool) (pre : String) (mask : VMState) : List BaseVM → List String
  | [] => []
  | vm :: rest =>
    if vm.State &&& mask = 0 then suggestLoop isID pre mask rest
    else if isID then
      if HasPrefix (Itoa vm.ID) pre then Itoa vm.ID :: suggestLoop isID pre mask rest
      else suggestLoop isID pre mask rest
    else if HasPrefix vm.Name pre then vm.Name :: suggestLoop isID pre mask rest
    else suggestLoop isID pre mask rest

/-- The function `cliVMSuggest(prefix, mask)`; `visible` is what `GlobalVMs()`
returns. The typed text counts as an ID when `strconv.Atoi` accepts it. -/
def cliVMSuggest (visible : List BaseVM) (pre : String) (mask : VMState) : List String :=
  suggestLoop (Atoi pre).isSome pre mask visible

/-! ## `cliVmHotplug`, the `add` branch (`vm_cli.go` lines 768-794) -/

/-- The map `vm.hotplug` (`map[int]string`), listed in the order in which the
`range` loop visits it. -/
abbrev HotplugMap := List (Int × String)

/-- The value of a 64-bit `int` expression whose mathematical value is `x`: Go
wraps around, so the result is the representative of `x` modulo `2 ^ 64` in
`[-2 ^ 63, 2 ^ 63 - 1]`. -/
def wrapInt (x : Int) : Int :=
  (x + 2 ^ 63) % 2 ^ 64 - 2 ^ 63

/-- The loop that generates the ID (lines 771-776), from the current `id`; the
sum `k + 1` is a 64-bit `int` and wraps at the largest `int`. -/
def nextHotplugID : HotplugMap → Int → Int
  | [], id => id
  | (k, _) :: rest, id => nextHotplugID rest (if k ≥ id then wrapInt (k + 1) else id)

/-- The ID generated for a new hotplug device: the loop started at 0. -/
def generateHotplugID (hotplug : HotplugMap) : Int :=
  nextHotplugID hotplug 0

/-- The statement `m[key] = value` on a map: an existing entry is overwritten,
a new key gets a new entry. -/
def hotplugSet : HotplugMap → Int → String → HotplugMap
  | [], key, value => [(key, value)]
  | (k, v) :: rest, key, value =>
    if k = key then (k, value) :: rest else (k, v) :: hotplugSet rest key value

/-- The QMP connection `vm.q` as the handler uses it: `Q` is its state, and
each call returns the response or the message of an error. -/
structure QMPEnv (Q : Type) where
  DriveAdd : String → String → Q → Except String String × Q
  USBDeviceAdd : String → Q → Except String String × Q

/-- What the `add` branch leaves behind: the result, the hotplug map and the
state of the QMP connection. -/
structure HotplugOutcome (Q : Type) where
  result : GoResult
  hotplug : HotplugMap
  qmp : Q

/-- The `add` branch of `cliVmHotplug`, once `FindKvmVM` has found the VM:
generate the ID, `DriveAdd`, `USBDeviceAdd`, and only then record the file. -/
def cliVmHotplugAdd {Q : Type} (env : QMPEnv Q) (hotplug : HotplugMap) (filename : String)
    (q : Q) : HotplugOutcome Q :=
  let id := generateHotplugID hotplug
  let hid := "hotplug" ++ Itoa id
  match env.DriveAdd hid filename q with
  | (Except.error e, q1) => ⟨GoResult.err e, hotplug, q1⟩
  | (Except.ok _, q1) =>
    match env.USBDeviceAdd hid q1 with
    | (Except.error e, q2) => ⟨GoResult.err e, hotplug, q2⟩
    | (Except.ok _, q2) => ⟨GoResult.nil, hotplugSet hotplug id filename, q2⟩

/-- A QMP connection on which `DriveAdd` fails for a file named `missing.img`
and everything else succeeds; its state counts the calls. -/
def sampleQMP : QMPEnv Nat where
  DriveAdd := fun _ filename q =>
    if filename = "missing.img" then (Except.error "could not open disk image", q + 1)
    else (Except.ok "OK", q + 1)
  USBDeviceAdd := fun _ q => (Except.ok "", q + 1)

/-! ## `NetConfig.String` (`vm.go` lines 282-296) -/

/-- The method `NetConfig.String`: the bridge when it is not empty, the VLAN in
decimal, the MAC when it is not empty, joined with commas. -/
def netConfigString (net : NetConfig) : String :=
  Join ((if net.Bridge ≠ "" then [net.Bridge] else []) ++ [Itoa net.VLAN]
    ++ (if net.MAC ≠ "" then [net.MAC] else [])) ","

/-! ## Theorems -/

/-! ### `Kill` -/

/-- Kill on a VM whose kill channel is still open: it returns nil exactly when
the state meets the KILLABLE mask, and then closes the channel and changes
nothing else. -/
theorem Kill_open_channel (st : VMStates) (vm : BaseVM) (hopen : vm.killClosed = false) :
    ((Kill st vm).1 = GoResult.nil ↔ vm.State &&& st.VM_KILLABLE ≠ 0) ∧
    (vm.State &&& st.VM_KILLABLE ≠ 0 → (Kill st vm).2 = { vm with killClosed := true }) := by
  by_cases h : vm.State &&& st.VM_KILLABLE = 0
  · simp [Kill, h]
  · simp [Kill, h, hopen]

/-- Kill on any VM whose state misses the KILLABLE mask: the invalid-state
error, with the channel and the state (the whole VM) untouched. -/
theorem Kill_not_killable (st : VMStates) (vm : BaseVM)
    (h : vm.State &&& st.VM_KILLABLE = 0) :
    Kill st vm = (GoResult.err (killErrorMessage st vm), vm) := by
  simp [Kill, h]

/-- Kill never writes the state, whatever it returns. -/
theorem Kill_state (st : VMStates) (vm : BaseVM) : (Kill st vm).2.State = vm.State := by
  unfold Kill
  split
  · rfl
  · split <;> rfl

/-- Kill on a killable VM whose kill channel is already closed closes it again:
a run-time panic, for every such VM. -/
theorem Kill_closed_channel (st : VMStates) (vm : BaseVM)
    (hk : vm.State &&& st.VM_KILLABLE ≠ 0) (hclosed : vm.killClosed = true) :
    Kill st vm = (GoResult.panicked "close of closed channel", vm) := by
  simp [Kill, hk, hclosed]

/-- C1 (code evaluated at the failing input): a RUNNING VM whose kill channel
has been closed by an earlier Kill is in the KILLABLE mask, yet Kill does not
return nil: it closes the closed channel, which panics. -/
theorem C1_Kill_killable_not_nil :
    sampleVM.State &&& specStates.VM_KILLABLE ≠ 0 ∧
    (Kill specStates sampleVM).2.State &&& specStates.VM_KILLABLE ≠ 0 ∧
    (Kill specStates (Kill specStates sampleVM).2).1
      = GoResult.panicked "close of closed channel" ∧
    (Kill specStates (Kill specStates sampleVM).2).1 ≠ GoResult.nil := by
  decide

/-- Two Kill calls in a row on any killable VM with an open channel: the first
returns nil and closes the channel, the second passes the same state check and
closes the channel a second time. -/
theorem Kill_twice (st : VMStates) (vm : BaseVM)
    (hk : vm.State &&& st.VM_KILLABLE ≠ 0) (hopen : vm.killClosed = false) :
    killSequence st 2 vm =
      ([GoResult.nil, GoResult.panicked "close of closed channel"],
        { vm with killClosed := true }) := by
  simp [killSequence, Kill, hk, hopen]

/-- C2 (code evaluated at the failing input): two Kill calls on a RUNNING VM
with no state write in between; the second call is not stopped by the state
check and closes the already closed kill channel (run-time panic). -/
theorem C2_Kill_twice_closes_twice :
    sampleVM.State &&& specStates.VM_KILLABLE ≠ 0 ∧
    sampleVM.killClosed = false ∧
    (killSequence specStates 2 sampleVM).1 =
      [GoResult.nil, GoResult.panicked "close of closed channel"] := by
  decide

/-! ### `NetworkConnect` and `NetworkDisconnect` -/

/-- A position that holds an entry passes the bounds check. -/
theorem valid_position (xs : List NetConfig) (pos : Int) (x : NetConfig) (hpos : 0 ≤ pos)
    (hx : xs[pos.toNat]? = some x) : ¬ ((xs.length : Int) ≤ pos) := by
  have hlt : pos.toNat < xs.length := by
    rcases Nat.lt_or_ge pos.toNat xs.length with h | h
    · exact h
    · rw [List.getElem?_eq_none h] at hx
      cases hx
  omega

/-- The entry that the code addresses at a valid position. -/
theorem indexNetworks_valid (xs : List NetConfig) (pos : Int) (x : NetConfig) (hpos : 0 ≤ pos)
    (hx : xs[pos.toNat]? = some x) : indexNetworks xs pos = some x := by
  have h : ¬ pos < 0 := by omega
  simp only [indexNetworks, h, if_false, hx]

/-- C3: when `getBridge(bridge)` fails, NetworkConnect at a valid position
returns that error, has called nothing but that `getBridge` (no TapRemove, no
TapAdd), and leaves the VM, hence the entry at `pos`, unchanged, connected
or not. -/
theorem NetworkConnect_bridge_unresolved {W B : Type} (env : BridgeEnv W B) (vm : BaseVM)
    (pos : Int) (bridge : String) (vlan : Int) (w w1 : W) (net : NetConfig) (e : String)
    (hpos : 0 ≤ pos) (hnet : vm.Networks[pos.toNat]? = some net)
    (hfail : env.getBridge bridge w = (Except.error e, w1)) :
    (NetworkConnect env vm pos bridge vlan w).result = GoResult.err e ∧
    (NetworkConnect env vm pos bridge vlan w).calls = [BridgeCall.getBridge bridge] ∧
    (∀ b tap, BridgeCall.TapRemove b tap ∉ (NetworkConnect env vm pos bridge vlan w).calls) ∧
    (∀ b tap v h, BridgeCall.TapAdd b tap v h ∉ (NetworkConnect env vm pos bridge vlan w).calls) ∧
    (NetworkConnect env vm pos bridge vlan w).vm = vm ∧
    (NetworkConnect env vm pos bridge vlan w).vm.Networks[pos.toNat]? = some net ∧
    (NetworkConnect env vm pos bridge vlan w).world = w1 := by
  have hv := valid_position vm.Networks pos net hpos hnet
  have he := indexNetworks_valid vm.Networks pos net hpos hnet
  simp [NetworkConnect, hv, he, hfail, hnet]

/-- Witness of C3: connecting the connected first network of the sample VM to a
bridge that does not resolve. -/
theorem NetworkConnect_bridge_unresolved_witness :
    (NetworkConnect specBridges sampleVM 0 "nope" 5 sampleWorld).result
        = GoResult.err "bridge not found: nope" ∧
    (NetworkConnect specBridges sampleVM 0 "nope" 5 sampleWorld).calls
        = [BridgeCall.getBridge "nope"] ∧
    (NetworkConnect specBridges sampleVM 0 "nope" 5 sampleWorld).vm = sampleVM :=
  have h := NetworkConnect_bridge_unresolved specBridges sampleVM 0 "nope" 5 sampleWorld
    sampleWorld
    { VLAN := 100, Bridge := "br0", Tap := "tap0", MAC := "00:11:22:33:44:55",
      Driver := "e1000", IP4 := "", IP6 := "", Stats := none }
    "bridge not found: nope" (by decide) (by decide) rfl
  ⟨h.1, h.2.1, h.2.2.2.2.1⟩

/-- C4: at a valid position whose entry holds the disconnected sentinel,
NetworkDisconnect returns nil, makes no bridge call at all and leaves the VM
and the bridges unchanged; and whenever a NetworkDisconnect at a valid position
has returned nil, a second one on the result returns nil too, makes no bridge
call and changes nothing, so that twice is the same as once. -/
theorem NetworkDisconnect_idempotent {W B : Type} (env : BridgeEnv W B) (vm : BaseVM)
    (pos : Int) (w : W) (net : NetConfig)
    (hpos : 0 ≤ pos) (hnet : vm.Networks[pos.toNat]? = some net) :
    (net.VLAN = env.DisconnectedVLAN →
      (NetworkDisconnect env vm pos w).result = GoResult.nil ∧
      (NetworkDisconnect env vm pos w).calls = [] ∧
      (NetworkDisconnect env vm pos w).vm = vm ∧
      (NetworkDisconnect env vm pos w).world = w) ∧
    ((NetworkDisconnect env vm pos w).result = GoResult.nil →
      (NetworkDisconnect env (NetworkDisconnect env vm pos w).vm pos
          (NetworkDisconnect env vm pos w).world).result = GoResult.nil ∧
      (NetworkDisconnect env (NetworkDisconnect env vm pos w).vm pos
          (NetworkDisconnect env vm pos w).world).calls = [] ∧
      (NetworkDisconnect env (NetworkDisconnect env vm pos w).vm pos
          (NetworkDisconnect env vm pos w).world).vm = (NetworkDisconnect env vm pos w).vm ∧
      (NetworkDisconnect env (NetworkDisconnect env vm pos w).vm pos
          (NetworkDisconnect env vm pos w).world).world
        = (NetworkDisconnect env vm pos w).world) := by
  have hv := valid_position vm.Networks pos net hpos hnet
  have he := indexNetworks_valid vm.Networks pos net hpos hnet
  have hlt : pos.toNat < vm.Networks.length := by omega
  constructor
  · intro hd
    simp [NetworkDisconnect, hv, he, hd]
  · by_cases hd : net.VLAN = env.DisconnectedVLAN
    · intro _
      simp [NetworkDisconnect, hv, he, hd]
    · rcases hg : env.getBridge net.Bridge w with ⟨r, w1⟩
      cases r with
      | error e => simp [NetworkDisconnect, hv, he, hd, hg]
      | ok b =>
        rcases hr : env.TapRemove b net.Tap w1 with ⟨r2, w2⟩
        cases r2 with
        | some e => simp [NetworkDisconnect, hv, he, hd, hg, hr]
        | none =>
          intro _
          have he2 : indexNetworks
              (vm.Networks.set pos.toNat
                { net with Bridge := "", VLAN := env.DisconnectedVLAN }) pos
              = some { net with Bridge := "", VLAN := env.DisconnectedVLAN } := by
            apply indexNetworks_valid _ _ _ hpos
            simp [List.getElem?_set, hlt]
          simp [NetworkDisconnect, hv, he, hd, hg, hr, setNetwork, he2]

/-- Witness of C4: the second network of the sample VM is disconnected, and
the connected first one is disconnected once and then again. -/
theorem NetworkDisconnect_idempotent_witness :
    (NetworkDisconnect specBridges sampleVM 1 sampleWorld).result = GoResult.nil ∧
    (NetworkDisconnect specBridges sampleVM 1 sampleWorld).vm = sampleVM ∧
    (NetworkDisconnect specBridges (NetworkDisconnect specBridges sampleVM 0 sampleWorld).vm 0
      (NetworkDisconnect specBridges sampleVM 0 sampleWorld).world).calls = [] :=
  have h1 := NetworkDisconnect_idempotent specBridges sampleVM 1 sampleWorld
    { VLAN := -1, Bridge := "", Tap := "tap1", MAC := "00:11:22:33:44:66",
      Driver := "e1000", IP4 := "", IP6 := "", Stats := none } (by decide) (by decide)
  have h0 := NetworkDisconnect_idempotent specBridges sampleVM 0 sampleWorld
    { VLAN := 100, Bridge := "br0", Tap := "tap0", MAC := "00:11:22:33:44:55",
      Driver := "e1000", IP4 := "", IP6 := "", Stats := none } (by decide) (by decide)
  ⟨(h1.1 (by decide)).1, (h1.1 (by decide)).2.2.1, (h0.2 (by decide)).2.1⟩

/-- Writing one entry keeps the length of the network list, puts the new entry
at that position and leaves every other position as it was. -/
theorem setNetwork_frame (vm : BaseVM) (i : Nat) (net : NetConfig)
    (hi : i < vm.Networks.length) :
    (setNetwork vm i net).Networks.length = vm.Networks.length ∧
    (setNetwork vm i net).Networks[i]? = some net ∧
    (∀ j, j ≠ i → (setNetwork vm i net).Networks[j]? = vm.Networks[j]?) := by
  refine ⟨by simp [setNetwork], by simp [setNetwork, hi], ?_⟩
  intro j hj
  simp [setNetwork, List.getElem?_set, Ne.symm hj]

/-- C5: at a valid position whose entry is connected, when the bridge of the
entry resolves and TapRemove succeeds, NetworkDisconnect calls TapRemove for
the tap of the entry on that bridge, returns nil, and writes exactly two fields
of that entry: Bridge becomes empty and VLAN the sentinel. Tap, MAC, Driver (and
IP4, IP6, Stats) of the entry, every other entry, the length and order of the
list and every other field of the VM are unchanged. -/
theorem NetworkDisconnect_connected {W B : Type} (env : BridgeEnv W B) (vm : BaseVM)
    (pos : Int) (w w1 w2 : W) (net : NetConfig) (b : B)
    (hpos : 0 ≤ pos) (hnet : vm.Networks[pos.toNat]? = some net)
    (hconn : net.VLAN ≠ env.DisconnectedVLAN)
    (hget : env.getBridge net.Bridge w = (Except.ok b, w1))
    (hrem : env.TapRemove b net.Tap w1 = (none, w2)) :
    NetworkDisconnect env vm pos w =
      ⟨GoResult.nil,
        setNetwork vm pos.toNat
          { VLAN := env.DisconnectedVLAN, Bridge := "", Tap := net.Tap, MAC := net.MAC,
            Driver := net.Driver, IP4 := net.IP4, IP6 := net.IP6, Stats := net.Stats },
        w2, [BridgeCall.getBridge net.Bridge, BridgeCall.TapRemove b net.Tap]⟩ ∧
    (NetworkDisconnect env vm pos w).vm.Networks.length = vm.Networks.length ∧
    (NetworkDisconnect env vm pos w).vm.Networks[pos.toNat]? =
      some { VLAN := env.DisconnectedVLAN, Bridge := "", Tap := net.Tap, MAC := net.MAC,
             Driver := net.Driver, IP4 := net.IP4, IP6 := net.IP6, Stats := net.Stats } ∧
    (∀ j, j ≠ pos.toNat →
      (NetworkDisconnect env vm pos w).vm.Networks[j]? = vm.Networks[j]?) := by
  have hv := valid_position vm.Networks pos net hpos hnet
  have he := indexNetworks_valid vm.Networks pos net hpos hnet
  have hlt : pos.toNat < vm.Networks.length := by omega
  have hout : NetworkDisconnect env vm pos w =
      ⟨GoResult.nil,
        setNetwork vm pos.toNat { net with Bridge := "", VLAN := env.DisconnectedVLAN },
        w2, [BridgeCall.getBridge net.Bridge, BridgeCall.TapRemove b net.Tap]⟩ := by
    simp [NetworkDisconnect, hv, he, hconn, hget, hrem]
  have hf := setNetwork_frame vm pos.toNat
    { net with Bridge := "", VLAN := env.DisconnectedVLAN } hlt
  rw [hout]
  exact ⟨rfl, hf.1, hf.2.1, hf.2.2⟩

/-- Witness of C5: disconnecting the connected first network of the sample VM. -/
theorem NetworkDisconnect_connected_witness :
    (NetworkDisconnect specBridges sampleVM 0 sampleWorld).vm.Networks[(0 : Int).toNat]? =
      some { VLAN := -1, Bridge := "", Tap := "tap0", MAC := "00:11:22:33:44:55",
             Driver := "e1000", IP4 := "", IP6 := "", Stats := none } ∧
    (NetworkDisconnect specBridges sampleVM 0 sampleWorld).calls =
      [BridgeCall.getBridge "br0", BridgeCall.TapRemove "br0" "tap0"] :=
  have h := NetworkDisconnect_connected specBridges sampleVM 0 sampleWorld sampleWorld
    { sampleWorld with taps := [] }
    { VLAN := 100, Bridge := "br0", Tap := "tap0", MAC := "00:11:22:33:44:55",
      Driver := "e1000", IP4 := "", IP6 := "", Stats := none } "br0"
    (by decide) (by decide) (by decide) rfl rfl
  ⟨h.2.2.1, congrArg NetOutcome.calls h.1⟩

/-- C6: whenever NetworkConnect at a valid position returns nil (the new
bridge resolved and every bridge call succeeded), the new bridge was resolved
first; then, if and only if the entry was connected, the old bridge was
resolved and TapRemove called on it for the tap of the entry; then TapAdd was
called on the new bridge with that tap and the requested VLAN; and the only
write to the VM sets VLAN and Bridge of that entry, leaving Tap, MAC, Driver,
the other entries, the length and the order of the list unchanged. -/
theorem NetworkConnect_success {W B : Type} (env : BridgeEnv W B) (vm : BaseVM)
    (pos : Int) (bridge : String) (vlan : Int) (w : W) (net : NetConfig)
    (hpos : 0 ≤ pos) (hnet : vm.Networks[pos.toNat]? = some net)
    (hok : (NetworkConnect env vm pos bridge vlan w).result = GoResult.nil) :
    (∃ newBridge w1, env.getBridge bridge w = (Except.ok newBridge, w1) ∧
      ((net.VLAN = env.DisconnectedVLAN ∧
          ∃ w4, env.TapAdd newBridge net.Tap vlan false w1 = (none, w4) ∧
            (NetworkConnect env vm pos bridge vlan w).world = w4 ∧
            (NetworkConnect env vm pos bridge vlan w).calls =
              [BridgeCall.getBridge bridge,
                BridgeCall.TapAdd newBridge net.Tap vlan false]) ∨
       (net.VLAN ≠ env.DisconnectedVLAN ∧
          ∃ oldBridge w2 w3 w4,
            env.getBridge net.Bridge w1 = (Except.ok oldBridge, w2) ∧
            env.TapRemove oldBridge net.Tap w2 = (none, w3) ∧
            env.TapAdd newBridge net.Tap vlan false w3 = (none, w4) ∧
            (NetworkConnect env vm pos bridge vlan w).world = w4 ∧
            (NetworkConnect env vm pos bridge vlan w).calls =
              [BridgeCall.getBridge bridge, BridgeCall.getBridge net.Bridge,
                BridgeCall.TapRemove oldBridge net.Tap,
                BridgeCall.TapAdd newBridge net.Tap vlan false]))) ∧
    ((∃ b tap, BridgeCall.TapRemove b tap ∈ (NetworkConnect env vm pos bridge vlan w).calls) ↔
      net.VLAN ≠ env.DisconnectedVLAN) ∧
    (NetworkConnect env vm pos bridge vlan w).vm =
      setNetwork vm pos.toNat
        { VLAN := vlan, Bridge := bridge, Tap := net.Tap, MAC := net.MAC,
          Driver := net.Driver, IP4 := net.IP4, IP6 := net.IP6, Stats := net.Stats } ∧
    (NetworkConnect env vm pos bridge vlan w).vm.Networks.length = vm.Networks.length ∧
    (NetworkConnect env vm pos bridge vlan w).vm.Networks[pos.toNat]? =
      some { VLAN := vlan, Bridge := bridge, Tap := net.Tap, MAC := net.MAC,
             Driver := net.Driver, IP4 := net.IP4, IP6 := net.IP6, Stats := net.Stats } ∧
    (∀ j, j ≠ pos.toNat →
      (NetworkConnect env vm pos bridge vlan w).vm.Networks[j]? = vm.Networks[j]?) := by
  have hv := valid_position vm.Networks pos net hpos hnet
  have he := indexNetworks_valid vm.Networks pos net hpos hnet
  have hlt : pos.toNat < vm.Networks.length := by omega
  have hf := setNetwork_frame vm pos.toNat { net with VLAN := vlan, Bridge := bridge } hlt
  rcases h1 : env.getBridge bridge w with ⟨r1, w1⟩
  cases r1 with
  | error e => simp [NetworkConnect, hv, he, h1] at hok
  | ok newBridge =>
    by_cases hd : net.VLAN = env.DisconnectedVLAN
    · rcases h4 : env.TapAdd newBridge net.Tap vlan false w1 with ⟨r4, w4⟩
      cases r4 with
      | some e => simp [NetworkConnect, hv, he, h1, hd, h4] at hok
      | none =>
        have hout : NetworkConnect env vm pos bridge vlan w =
            ⟨GoResult.nil, setNetwork vm pos.toNat { net with VLAN := vlan, Bridge := bridge },
              w4, [BridgeCall.getBridge bridge,
                BridgeCall.TapAdd newBridge net.Tap vlan false]⟩ := by
          simp [NetworkConnect, hv, he, h1, hd, h4]
        rw [hout]
        refine ⟨⟨newBridge, w1, rfl, Or.inl ⟨hd, w4, h4, rfl, rfl⟩⟩, ?_, rfl, hf.1, hf.2.1,
          hf.2.2⟩
        simp [hd]
    · rcases h2 : env.getBridge net.Bridge w1 with ⟨r2, w2⟩
      cases r2 with
      | error e => simp [NetworkConnect, hv, he, h1, hd, h2] at hok
      | ok oldBridge =>
        rcases h3 : env.TapRemove oldBridge net.Tap w2 with ⟨r3, w3⟩
        cases r3 with
        | some e => simp [NetworkConnect, hv, he, h1, hd, h2, h3] at hok
        | none =>
          rcases h4 : env.TapAdd newBridge net.Tap vlan false w3 with ⟨r4, w4⟩
          cases r4 with
          | some e => simp [NetworkConnect, hv, he, h1, hd, h2, h3, h4] at hok
          | none =>
            have hout : NetworkConnect env vm pos bridge vlan w =
                ⟨GoResult.nil,
                  setNetwork vm pos.toNat { net with VLAN := vlan, Bridge := bridge }, w4,
                  [BridgeCall.getBridge bridge, BridgeCall.getBridge net.Bridge,
                    BridgeCall.TapRemove oldBridge net.Tap,
                    BridgeCall.TapAdd newBridge net.Tap vlan false]⟩ := by
              simp [NetworkConnect, hv, he, h1, hd, h2, h3, h4]
            rw [hout]
            refine ⟨⟨newBridge, w1, rfl,
              Or.inr ⟨hd, oldBridge, w2, w3, w4, h2, h3, h4, rfl, rfl⟩⟩, ?_, rfl, hf.1, hf.2.1,
              hf.2.2⟩
            simp [hd]

/-- Witness of C6: moving the connected first network of the sample VM from
`br0` to `br2` at VLAN 7. -/
theorem NetworkConnect_success_witness :
    (NetworkConnect specBridges sampleVM 0 "br2" 7 sampleWorld).vm.Networks[(0 : Int).toNat]? =
      some { VLAN := 7, Bridge := "br2", Tap := "tap0", MAC := "00:11:22:33:44:55",
             Driver := "e1000", IP4 := "", IP6 := "", Stats := none } ∧
    (NetworkConnect specBridges sampleVM 0 "br2" 7 sampleWorld).vm.Networks.length
      = sampleVM.Networks.length :=
  have h := NetworkConnect_success specBridges sampleVM 0 "br2" 7 sampleWorld
    { VLAN := 100, Bridge := "br0", Tap := "tap0", MAC := "00:11:22:33:44:55",
      Driver := "e1000", IP4 := "", IP6 := "", Stats := none }
    (by decide) (by decide) (by decide)
  ⟨h.2.2.2.2.1, h.2.2.2.1⟩

/-- The bridge model `specBridges` obeys `BridgeLaws` for `specAttached`. -/
theorem specBridges_laws : BridgeLaws specBridges specAttached where
  getBridge_frame := by
    intro name w b t
    by_cases h : name ∈ w.bridges <;> simp [specBridges, h]
  tapRemove_ok := by
    intro b t w w1 h b1 t1
    simp only [specBridges] at h
    split at h
    · simp only [Prod.mk.injEq, true_and] at h
      subst h
      simp only [specAttached, List.mem_filter, decide_eq_true_eq]
      constructor
      · rintro ⟨a, ⟨ha, hne⟩, hb, ht⟩
        exact ⟨⟨a, ha, hb, ht⟩, by rw [← hb, ← ht]; exact hne⟩
      · rintro ⟨⟨a, ha, hb, ht⟩, hne⟩
        exact ⟨a, ⟨ha, by rw [hb, ht]; exact hne⟩, hb, ht⟩
    · simp at h
  tapAdd_failed := by
    intro b t v h w e w1 hadd b1 t1
    by_cases hr : b ∈ w.refusing
    · simp only [specBridges, hr, if_true, Prod.mk.injEq] at hadd
      rw [← hadd.2]
    · simp [specBridges, hr] at hadd

/-- C7: at a valid position whose entry is connected, when both bridges
resolve, the detach from the old bridge succeeds and the attach to the new
bridge fails, NetworkConnect returns the attach error; the failed TapAdd is its
last bridge call (nothing is re-attached to the old bridge) and the VM value is
not written. With a bridge layer obeying `BridgeLaws` and the tap attached to
no bridge but the old one beforehand, the tap ends attached to no bridge. -/
theorem NetworkConnect_attach_failed {W B : Type} (env : BridgeEnv W B)
    (attached : W → B → String → Prop) (laws : BridgeLaws env attached)
    (vm : BaseVM) (pos : Int) (bridge : String) (vlan : Int) (w w1 w2 w3 w4 : W)
    (net : NetConfig) (newBridge oldBridge : B) (e : String)
    (hpos : 0 ≤ pos) (hnet : vm.Networks[pos.toNat]? = some net)
    (hconn : net.VLAN ≠ env.DisconnectedVLAN)
    (h1 : env.getBridge bridge w = (Except.ok newBridge, w1))
    (h2 : env.getBridge net.Bridge w1 = (Except.ok oldBridge, w2))
    (h3 : env.TapRemove oldBridge net.Tap w2 = (none, w3))
    (h4 : env.TapAdd newBridge net.Tap vlan false w3 = (some e, w4))
    (hone : ∀ b, attached w b net.Tap → b = oldBridge) :
    NetworkConnect env vm pos bridge vlan w =
      ⟨GoResult.err e, vm, w4,
        [BridgeCall.getBridge bridge, BridgeCall.getBridge net.Bridge,
          BridgeCall.TapRemove oldBridge net.Tap,
          BridgeCall.TapAdd newBridge net.Tap vlan false]⟩ ∧
    (∀ b, ¬ attached (NetworkConnect env vm pos bridge vlan w).world b net.Tap) := by
  have hv := valid_position vm.Networks pos net hpos hnet
  have he := indexNetworks_valid vm.Networks pos net hpos hnet
  have hout : NetworkConnect env vm pos bridge vlan w =
      ⟨GoResult.err e, vm, w4,
        [BridgeCall.getBridge bridge, BridgeCall.getBridge net.Bridge,
          BridgeCall.TapRemove oldBridge net.Tap,
          BridgeCall.TapAdd newBridge net.Tap vlan false]⟩ := by
    simp [NetworkConnect, hv, he, hconn, h1, h2, h3, h4]
  refine ⟨hout, ?_⟩
  intro b hb
  rw [hout] at hb
  have hb3 := (laws.tapAdd_failed newBridge net.Tap vlan false w3 e w4 h4 b net.Tap).mp hb
  have hb2 := (laws.tapRemove_ok oldBridge net.Tap w2 w3 h3 b net.Tap).mp hb3
  have hw2 : attached w2 b net.Tap ↔ attached w1 b net.Tap := by
    have := laws.getBridge_frame net.Bridge w1 b net.Tap
    rwa [h2] at this
  have hw1 : attached w1 b net.Tap ↔ attached w b net.Tap := by
    have := laws.getBridge_frame bridge w b net.Tap
    rwa [h1] at this
  exact hb2.2 ⟨hone b (hw1.mp (hw2.mp hb2.1)), rfl⟩

/-- Witness of C7: moving the first network of the sample VM to `br1`, which
refuses the attach, after `tap0` has been detached from `br0`. -/
theorem NetworkConnect_attach_failed_witness :
    (NetworkConnect specBridges sampleVM 0 "br1" 5 sampleWorld).result
      = GoResult.err "cannot add tap to bridge: br1" ∧
    (∀ b, ¬ specAttached (NetworkConnect specBridges sampleVM 0 "br1" 5 sampleWorld).world
      b "tap0") :=
  have h := NetworkConnect_attach_failed specBridges specAttached specBridges_laws
    sampleVM 0 "br1" 5 sampleWorld sampleWorld sampleWorld
    { sampleWorld with taps := [] } { sampleWorld with taps := [] }
    { VLAN := 100, Bridge := "br0", Tap := "tap0", MAC := "00:11:22:33:44:55",
      Driver := "e1000", IP4 := "", IP6 := "", Stats := none } "br1" "br0"
    "cannot add tap to bridge: br1"
    (by decide) (by decide) (by decide) rfl rfl rfl rfl
    (by
      intro b hb
      simp only [specAttached, sampleWorld, List.mem_singleton] at hb
      obtain ⟨a, ha, hab, _⟩ := hb
      rw [← hab, ha])
  ⟨congrArg NetOutcome.result h.1, h.2⟩

/-- A position at or beyond the end of the network list: both calls return the
no-network error carrying the position, make no bridge call and leave the VM
and the bridges unchanged. -/
theorem Network_position_beyond_end {W B : Type} (env : BridgeEnv W B) (vm : BaseVM)
    (pos : Int) (bridge : String) (vlan : Int) (w : W)
    (hpos : (vm.Networks.length : Int) ≤ pos) :
    NetworkConnect env vm pos bridge vlan w =
      ⟨GoResult.err (noNetworkMessage pos vm.Networks.length), vm, w, []⟩ ∧
    NetworkDisconnect env vm pos w =
      ⟨GoResult.err (noNetworkMessage pos vm.Networks.length), vm, w, []⟩ := by
  simp [NetworkConnect, NetworkDisconnect, hpos]

/-- A negative position passes the check `len(vm.Networks) <= pos` and reaches
the indexing `vm.Networks[pos]`: both calls panic, for every VM. -/
theorem Network_position_negative {W B : Type} (env : BridgeEnv W B) (vm : BaseVM)
    (pos : Int) (bridge : String) (vlan : Int) (w : W) (hneg : pos < 0) :
    NetworkConnect env vm pos bridge vlan w =
      ⟨GoResult.panicked (indexPanicMessage pos), vm, w, []⟩ ∧
    NetworkDisconnect env vm pos w =
      ⟨GoResult.panicked (indexPanicMessage pos), vm, w, []⟩ := by
  have h : ¬ ((vm.Networks.length : Int) ≤ pos) := by omega
  simp [NetworkConnect, NetworkDisconnect, h, indexNetworks, hneg]

/-- C8 (code evaluated at the failing input): the tap position argument `-1`
is accepted by `strconv.Atoi` and is not a valid index, yet neither call
returns the no-network error: the bounds check lets the negative position
through and `vm.Networks[-1]` panics with an index out of range. -/
theorem C8_negative_position_panics :
    Atoi "-1" = some (-1) ∧
    (NetworkConnect specBridges sampleVM (-1) "br2" 7 sampleWorld).result
      = GoResult.panicked "runtime error: index out of range [-1]" ∧
    (NetworkDisconnect specBridges sampleVM (-1) sampleWorld).result
      = GoResult.panicked "runtime error: index out of range [-1]" ∧
    (NetworkConnect specBridges sampleVM (-1) "br2" 7 sampleWorld).result
      ≠ GoResult.err (noNetworkMessage (-1) sampleVM.Networks.length) := by
  decide

/-! ### `processVMNet` -/

/-- Splitting at the first comma: the text before a comma that has no comma
itself is the first piece. -/
theorem splitComma_token_cons (xs rest : List Char) (h : ',' ∉ xs) :
    splitComma (xs ++ ',' :: rest) = xs :: splitComma rest := by
  induction xs with
  | nil => simp [splitComma]
  | cons c cs ih =>
    have hc : c ≠ ',' := fun hc => h (by simp [hc])
    have hcs : ',' ∉ cs := fun hcs => h (by simp [hcs])
    simp [splitComma, hc, ih hcs]

/-- A text without a comma is a single piece. -/
theorem splitComma_token (xs : List Char) (h : ',' ∉ xs) : splitComma xs = [xs] := by
  induction xs with
  | nil => simp [splitComma]
  | cons c cs ih =>
    have hc : c ≠ ',' := fun hc => h (by simp [hc])
    have hcs : ',' ∉ cs := fun hcs => h (by simp [hcs])
    simp [splitComma, hc, ih hcs]

/-- Splitting undoes joining: comma-free tokens joined with commas split back
into the same tokens. -/
theorem Split_Join (ts : List String) (hne : ts ≠ []) (h : ∀ t ∈ ts, commaFree t) :
    Split (Join ts ",") = ts := by
  induction ts with
  | nil => exact absurd rfl hne
  | cons t rest ih =>
    cases rest with
    | nil =>
      have ht : ',' ∉ t.data := h t (by simp)
      simp only [Split, Join, String.toList, splitComma_token _ ht, List.map_cons, List.map_nil]
    | cons u rest2 =>
      have ht : ',' ∉ t.data := h t (by simp)
      have ih2 := ih (by simp) (fun x hx => h x (by simp [hx]))
      simp only [Split] at ih2
      simp only [Split, Join, String.toList, String.data_append, List.append_assoc]
      simp only [String.toList] at ih2
      rw [List.singleton_append, splitComma_token_cons _ _ ht, List.map_cons, ih2]

/-- The digit loop accepts no comma. -/
theorem parseDigits_commaFree (cs : List Char) (acc n : Nat)
    (h : parseDigits cs acc = some n) : ',' ∉ cs := by
  induction cs generalizing acc with
  | nil => simp
  | cons c cs ih =>
    simp only [parseDigits] at h
    cases hd : digitValue c with
    | none => simp [hd] at h
    | some d =>
      simp only [hd] at h
      have hc : c ≠ ',' := by
        intro hc
        subst hc
        simp [digitValue] at hd
      have := ih _ h
      simp [this, Ne.symm hc]

/-- A token that `strconv.Atoi` accepts has no comma. -/
theorem Atoi_commaFree (v : String) (n : Int) (h : Atoi v = some n) : commaFree v := by
  unfold commaFree
  unfold Atoi at h
  split at h
  · cases h
  · rename_i cs heq
    rw [heq]
    cases hp : parseUnsigned cs with
    | none => simp [hp] at h
    | some k =>
      unfold parseUnsigned at hp
      split at hp
      · cases hp
      · simp [parseDigits_commaFree cs 0 k hp]
  · rename_i cs heq
    rw [heq]
    cases hp : parseUnsigned cs with
    | none => simp [hp] at h
    | some k =>
      unfold parseUnsigned at hp
      split at hp
      · cases hp
      · simp [parseDigits_commaFree cs 0 k hp]
  · cases hp : parseUnsigned v.toList with
    | none =>
      simp only [String.toList] at hp
      simp [hp] at h
    | some k =>
      unfold parseUnsigned at hp
      split at hp
      · cases hp
      · exact parseDigits_commaFree v.toList 0 k hp

/-- More than four fields (the `default` case of the switch): the plain
malformed-netspec error, before any call on the allocator. -/
theorem processVMNet_too_many_fields {A : Type} (env : NetEnv A) (spec : String) (a : A)
    (h : netFields env (Split spec) = none) :
    processVMNet env spec a = ⟨Except.error "malformed netspec", a, [], []⟩ := by
  simp [processVMNet, h]

/-- An invalid driver token: the error is returned before any call on the
allocator, whose state is untouched. -/
theorem processVMNet_invalid_driver {A : Type} (env : NetEnv A) (spec : String) (a : A)
    (b v m d : String) (h : netFields env (Split spec) = some (b, v, m, d))
    (hd : d ≠ "") (hdrv : env.isNetworkDriver d = false) :
    processVMNet env spec a =
      ⟨Except.error ("malformed netspec, invalid driver: " ++ d), a, [], []⟩ := by
  simp [processVMNet, h, hd, hdrv]

/-- An invalid MAC token: the error is returned after the VLAN step, so the
allocator is left in the state that `GetOrAllocate` or `Blacklist` produced and
the call shows in the trace. -/
theorem processVMNet_invalid_mac {A : Type} (env : NetEnv A) (spec : String) (a : A)
    (b v m d : String) (h : netFields env (Split spec) = some (b, v, m, d))
    (hd : ¬ (d ≠ "" ∧ env.isNetworkDriver d = false))
    (hm : m ≠ "") (hmac : env.isMac m = false) :
    (processVMNet env spec a).result =
      Except.error ("malformed netspec, invalid mac address: " ++ m) ∧
    (processVMNet env spec a).alloc = (resolveVLAN env v a).2.1 ∧
    (processVMNet env spec a).calls = (resolveVLAN env v a).2.2.2 ∧
    (processVMNet env spec a).calls ≠ [] := by
  have hd2 : ¬ (¬ d = "" ∧ env.isNetworkDriver d = false) := hd
  have hcalls : (resolveVLAN env v a).2.2.2 ≠ [] := by
    unfold resolveVLAN
    split <;> simp
  have hout : processVMNet env spec a =
      ⟨Except.error ("malformed netspec, invalid mac address: " ++ m),
        (resolveVLAN env v a).2.1, (resolveVLAN env v a).2.2.1, (resolveVLAN env v a).2.2.2⟩ := by
    simp [processVMNet, h, hd2, hm, hmac]
  rw [hout]
  exact ⟨rfl, rfl, rfl, hcalls⟩

/-- C9 (code evaluated at the failing input): the four-field netspec
`a,100,zz,e1000` is rejected for its invalid MAC address, but only after the VLAN
step has run: `Blacklist(100)` has been called and the allocator state is no
longer the one before the call. -/
theorem C9_invalid_mac_after_blacklist :
    (processVMNet specNetEnv "a,100,zz,e1000" ⟨[], []⟩).result =
      Except.error "malformed netspec, invalid mac address: zz" ∧
    (processVMNet specNetEnv "a,100,zz,e1000" ⟨[], []⟩).calls =
      [VLANCall.GetAlias 100, VLANCall.Blacklist 100] ∧
    (processVMNet specNetEnv "a,100,zz,e1000" ⟨[], []⟩).alloc = ⟨[], [100]⟩ ∧
    (processVMNet specNetEnv "a,100,zz,e1000" ⟨[], []⟩).alloc ≠ ⟨[], []⟩ := by
  refine ⟨rfl, by decide, by decide, by decide⟩

/-- Lower-casing the empty string gives the empty string. -/
theorem ToLower_empty {A : Type} (env : NetEnv A) : ToLower env "" = "" := by
  rfl

/-- The result of `processVMNet` once the switch has classified the tokens, the
driver and MAC checks pass and the VLAN token is an integer. -/
theorem processVMNet_integer_vlan {A : Type} (env : NetEnv A) (spec : String) (a : A)
    (b v m d : String) (n : Int)
    (h : netFields env (Split spec) = some (b, v, m, d))
    (hd : d = "" ∨ env.isNetworkDriver d = true)
    (hm : m = "" ∨ env.isMac m = true)
    (hv : Atoi v = some n) :
    (processVMNet env spec a).result =
      Except.ok (newNetConfig n (if b = "" then env.DEFAULT_BRIDGE else b) (ToLower env m)
        (if d = "" then VM_NET_DRIVER_DEFAULT else d)) := by
  have hd2 : ¬ (¬ d = "" ∧ env.isNetworkDriver d = false) := by
    rintro ⟨h1, h2⟩
    rcases hd with hd | hd
    · exact h1 hd
    · rw [hd] at h2; cases h2
  have hm2 : ¬ (¬ m = "" ∧ env.isMac m = false) := by
    rintro ⟨h1, h2⟩
    rcases hm with hm | hm
    · exact h1 hm
    · rw [hm] at h2; cases h2
  simp [processVMNet, h, hd2, hm2, resolveVLAN, hv]

/-- C10 (counterexample): two netspecs in the documented forms whose tokens
have the named shapes and whose fields are not the tokens. In `,100` (form
bridge,vlan with the comma-free bridge token empty) the Bridge is the default
bridge, not the token. In `br,99999999999999999999` the VLAN token is a decimal
integer beyond the range of `int`, `strconv.Atoi` fails, the token is taken for
an alias and the VLAN is a freshly allocated tag, not the value of the token. -/
theorem C10_token_not_assigned :
    commaFree "" ∧ Atoi "100" = some 100 ∧
    specNetEnv.isMac "100" = false ∧ specNetEnv.isNetworkDriver "100" = false ∧
    (processVMNet specNetEnv (Join ["", "100"] ",") ⟨[], []⟩).result =
      Except.ok (newNetConfig 100 "mega_bridge" "" "e1000") ∧
    (newNetConfig 100 "mega_bridge" "" "e1000").Bridge ≠ "" ∧
    commaFree "br" ∧
    specNetEnv.isMac "99999999999999999999" = false ∧
    specNetEnv.isNetworkDriver "99999999999999999999" = false ∧
    (processVMNet specNetEnv (Join ["br", "99999999999999999999"] ",") ⟨[], []⟩).result =
      Except.ok (newNetConfig 2 "br" "" "e1000") ∧
    (newNetConfig 2 "br" "" "e1000").VLAN ≠ 99999999999999999999 := by
  refine ⟨by decide, by decide, by decide, by decide, rfl, by decide, by decide, by decide,
    by decide, rfl, by decide⟩

/-- C10 (amended): for netspecs in the eight documented forms, built from
comma-free tokens where the bridge token is not empty, the VLAN token is one
that `strconv.Atoi` accepts with value `n` (optional sign, decimal digits,
within the range of `int`) and is neither a MAC nor a driver name, the mac
token satisfies `isMac`, and the driver token is not empty, satisfies
`isNetworkDriver` and is not a MAC: processVMNet succeeds and returns VLAN `n`,
Bridge the bridge token (the default bridge when absent), MAC the lower-cased
mac token (empty when absent) and Driver the driver token (`e1000` when
absent). -/
theorem processVMNet_documented_forms {A : Type} (env : NetEnv A) (a : A)
    (b v m d : String) (n : Int)
    (hb : commaFree b) (hb0 : b ≠ "")
    (hv : Atoi v = some n) (hvmac : env.isMac v = false)
    (hvdrv : env.isNetworkDriver v = false)
    (hm : commaFree m) (hmac : env.isMac m = true)
    (hd : commaFree d) (hd0 : d ≠ "") (hdrv : env.isNetworkDriver d = true)
    (hdmac : env.isMac d = false) :
    (processVMNet env (Join [v] ",") a).result =
      Except.ok (newNetConfig n env.DEFAULT_BRIDGE "" VM_NET_DRIVER_DEFAULT) ∧
    (processVMNet env (Join [v, m] ",") a).result =
      Except.ok (newNetConfig n env.DEFAULT_BRIDGE (ToLower env m) VM_NET_DRIVER_DEFAULT) ∧
    (processVMNet env (Join [b, v] ",") a).result =
      Except.ok (newNetConfig n b "" VM_NET_DRIVER_DEFAULT) ∧
    (processVMNet env (Join [v, d] ",") a).result =
      Except.ok (newNetConfig n env.DEFAULT_BRIDGE "" d) ∧
    (processVMNet env (Join [b, v, m] ",") a).result =
      Except.ok (newNetConfig n b (ToLower env m) VM_NET_DRIVER_DEFAULT) ∧
    (processVMNet env (Join [v, m, d] ",") a).result =
      Except.ok (newNetConfig n env.DEFAULT_BRIDGE (ToLower env m) d) ∧
    (processVMNet env (Join [b, v, d] ",") a).result =
      Except.ok (newNetConfig n b "" d) ∧
    (processVMNet env (Join [b, v, m, d] ",") a).result =
      Except.ok (newNetConfig n b (ToLower env m) d) := by
  have hvc : commaFree v := Atoi_commaFree v n hv
  have s1 : Split (Join [v] ",") = [v] := Split_Join _ (by simp) (by simp [hvc])
  have s2 : Split (Join [v, m] ",") = [v, m] := Split_Join _ (by simp) (by simp [hvc, hm])
  have s3 : Split (Join [b, v] ",") = [b, v] := Split_Join _ (by simp) (by simp [hvc, hb])
  have s4 : Split (Join [v, d] ",") = [v, d] := Split_Join _ (by simp) (by simp [hvc, hd])
  have s5 : Split (Join [b, v, m] ",") = [b, v, m] :=
    Split_Join _ (by simp) (by simp [hvc, hb, hm])
  have s6 : Split (Join [v, m, d] ",") = [v, m, d] :=
    Split_Join _ (by simp) (by simp [hvc, hm, hd])
  have s7 : Split (Join [b, v, d] ",") = [b, v, d] :=
    Split_Join _ (by simp) (by simp [hvc, hb, hd])
  have s8 : Split (Join [b, v, m, d] ",") = [b, v, m, d] :=
    Split_Join _ (by simp) (by simp [hvc, hb, hm, hd])
  have e := ToLower_empty env
  refine ⟨?_, ?_, ?_, ?_, ?_, ?_, ?_, ?_⟩
  · have h := processVMNet_integer_vlan env (Join [v] ",") a "" v "" "" n
      (by rw [s1]; rfl) (Or.inl rfl) (Or.inl rfl) hv
    simpa [e] using h
  · have h := processVMNet_integer_vlan env (Join [v, m] ",") a "" v m "" n
      (by rw [s2]; simp [netFields, hmac]) (Or.inl rfl) (Or.inr hmac) hv
    simpa using h
  · have h := processVMNet_integer_vlan env (Join [b, v] ",") a b v "" "" n
      (by rw [s3]; simp [netFields, hvmac, hvdrv]) (Or.inl rfl) (Or.inl rfl) hv
    simpa [e, hb0] using h
  · have h := processVMNet_integer_vlan env (Join [v, d] ",") a "" v "" d n
      (by rw [s4]; simp [netFields, hdmac, hdrv]) (Or.inr hdrv) (Or.inl rfl) hv
    simpa [e, hd0] using h
  · have h := processVMNet_integer_vlan env (Join [b, v, m] ",") a b v m "" n
      (by rw [s5]; simp [netFields, hmac]) (Or.inl rfl) (Or.inr hmac) hv
    simpa [hb0] using h
  · have h := processVMNet_integer_vlan env (Join [v, m, d] ",") a "" v m d n
      (by rw [s6]; simp [netFields, hdmac, hmac]) (Or.inr hdrv) (Or.inr hmac) hv
    simpa [hd0] using h
  · have h := processVMNet_integer_vlan env (Join [b, v, d] ",") a b v "" d n
      (by rw [s7]; simp [netFields, hdmac, hvmac]) (Or.inr hdrv) (Or.inl rfl) hv
    simpa [e, hb0, hd0] using h
  · have h := processVMNet_integer_vlan env (Join [b, v, m, d] ",") a b v m d n
      (by rw [s8]; simp [netFields]) (Or.inr hdrv) (Or.inr hmac) hv
    simpa [hb0, hd0] using h

/-- Witness of C10 (amended): the tokens `br0`, `100`, `AA:bb:cc:dd:ee:ff` and
`virtio-net-pci`; the four-field form yields exactly these fields, the MAC in
lower case. -/
theorem processVMNet_documented_forms_witness :
    (processVMNet specNetEnv (Join ["br0", "100", "AA:bb:cc:dd:ee:ff", "virtio-net-pci"] ",")
        ⟨[], []⟩).result =
      Except.ok (newNetConfig 100 "br0" (ToLower specNetEnv "AA:bb:cc:dd:ee:ff")
        "virtio-net-pci") ∧
    (processVMNet specNetEnv (Join ["100", "virtio-net-pci"] ",") ⟨[], []⟩).result =
      Except.ok (newNetConfig 100 specNetEnv.DEFAULT_BRIDGE "" "virtio-net-pci") ∧
    ToLower specNetEnv "AA:bb:cc:dd:ee:ff" = "aa:bb:cc:dd:ee:ff" ∧
    Join ["br0", "100", "AA:bb:cc:dd:ee:ff", "virtio-net-pci"] ","
      = "br0,100,AA:bb:cc:dd:ee:ff,virtio-net-pci" :=
  have h := processVMNet_documented_forms specNetEnv ⟨[], []⟩
    "br0" "100" "AA:bb:cc:dd:ee:ff" "virtio-net-pci" 100
    (by decide) (by decide) (by decide) (by decide) (by decide) (by decide) (by decide)
    (by decide) (by decide) (by decide) (by decide)
  ⟨h.2.2.2.2.2.2.2, h.2.2.2.1, by decide, by decide⟩

/-- Splitting never yields an empty list of pieces. -/
theorem splitComma_ne_nil (cs : List Char) : splitComma cs ≠ [] := by
  induction cs with
  | nil => simp [splitComma]
  | cons c cs ih =>
    unfold splitComma
    split
    · simp
    · split <;> simp

/-- The pieces of a netspec are at least one. -/
theorem Split_length_pos (spec : String) : 0 < (Split spec).length := by
  have h := splitComma_ne_nil spec.toList
  simp only [Split, List.length_map]
  exact List.length_pos.mpr h

/-- The switch on the number of fields reaches its `default` case exactly when
there is no field or more than four. -/
theorem netFields_none_iff {A : Type} (env : NetEnv A) (fs : List String) :
    netFields env fs = none ↔ fs.length = 0 ∨ 4 < fs.length := by
  match fs with
  | [] => simp [netFields]
  | [f0] => simp [netFields]
  | [f0, f1] =>
    simp only [netFields]
    split
    · simp
    · split <;> simp
  | [f0, f1, f2] =>
    simp only [netFields]
    split
    · simp
    · split <;> simp
  | [f0, f1, f2, f3] => simp [netFields]
  | f0 :: f1 :: f2 :: f3 :: f4 :: rest => simp [netFields]

/-- The result of `processVMNet` once the switch has classified the tokens and
the driver and MAC checks pass: a success whose VLAN comes from the VLAN step. -/
theorem processVMNet_accepts {A : Type} (env : NetEnv A) (spec : String) (a : A)
    (b v m d : String)
    (h : netFields env (Split spec) = some (b, v, m, d))
    (hd : d = "" ∨ env.isNetworkDriver d = true)
    (hm : m = "" ∨ env.isMac m = true) :
    (processVMNet env spec a).result =
      Except.ok (newNetConfig (resolveVLAN env v a).1
        (if b = "" then env.DEFAULT_BRIDGE else b) (ToLower env m)
        (if d = "" then VM_NET_DRIVER_DEFAULT else d)) ∧
    (processVMNet env spec a).alloc = (resolveVLAN env v a).2.1 ∧
    (processVMNet env spec a).calls = (resolveVLAN env v a).2.2.2 ∧
    (∀ line ∈ (resolveVLAN env v a).2.2.1, line ∈ (processVMNet env spec a).warnings) := by
  have hd2 : ¬ (¬ d = "" ∧ env.isNetworkDriver d = false) := by
    rintro ⟨h1, h2⟩
    rcases hd with hd | hd
    · exact h1 hd
    · rw [hd] at h2; cases h2
  have hm2 : ¬ (¬ m = "" ∧ env.isMac m = false) := by
    rintro ⟨h1, h2⟩
    rcases hm with hm | hm
    · exact h1 hm
    · rw [hm] at h2; cases h2
  refine ⟨by simp [processVMNet, h, hd2, hm2], by simp [processVMNet, h, hd2, hm2],
    by simp [processVMNet, h, hd2, hm2], ?_⟩
  intro line hline
  have hw : (processVMNet env spec a).warnings =
      if ¬ m = "" ∧ env.allocatedMac m = false then
        (resolveVLAN env v a).2.2.1 ++ ["unallocated mac address: " ++ m]
      else (resolveVLAN env v a).2.2.1 := by
    simp [processVMNet, h, hd2, hm2]
  rw [hw]
  split
  · exact List.mem_append_left _ hline
  · exact hline

/-- C11: processVMNet returns an error exactly when the netspec has more than
four comma-separated fields, or the token classified as the driver is not empty
and not a recognised driver, or the token classified as the MAC is not empty
and not a MAC address. Whenever the fields are at most four and both checks
pass it succeeds, whatever `strconv.Atoi` says of the VLAN token and whatever
`allocatedMac` says of the MAC. -/
theorem processVMNet_error_iff {A : Type} (env : NetEnv A) (spec : String) (a : A) :
    ((∃ msg, (processVMNet env spec a).result = Except.error msg) ↔
      (4 < (Split spec).length ∨
       (∃ b v m d, netFields env (Split spec) = some (b, v, m, d) ∧
          d ≠ "" ∧ env.isNetworkDriver d = false) ∨
       (∃ b v m d, netFields env (Split spec) = some (b, v, m, d) ∧
          m ≠ "" ∧ env.isMac m = false))) ∧
    (∀ b v m d, netFields env (Split spec) = some (b, v, m, d) →
      (d = "" ∨ env.isNetworkDriver d = true) → (m = "" ∨ env.isMac m = true) →
      ∃ c, (processVMNet env spec a).result = Except.ok c) := by
  have hpos := Split_length_pos spec
  have hacc : ∀ b v m d, netFields env (Split spec) = some (b, v, m, d) →
      (d = "" ∨ env.isNetworkDriver d = true) → (m = "" ∨ env.isMac m = true) →
      ∃ c, (processVMNet env spec a).result = Except.ok c :=
    fun b v m d h hd hm => ⟨_, (processVMNet_accepts env spec a b v m d h hd hm).1⟩
  refine ⟨?_, hacc⟩
  cases hf : netFields env (Split spec) with
  | none =>
    have hlen := (netFields_none_iff env (Split spec)).mp hf
    have h4 : 4 < (Split spec).length := by omega
    constructor
    · intro _
      exact Or.inl h4
    · intro _
      exact ⟨_, congrArg NetSpecOutcome.result (processVMNet_too_many_fields env spec a hf)⟩
  | some t =>
    obtain ⟨b, v, m, d⟩ := t
    have hlen : ¬ 4 < (Split spec).length := by
      intro h4
      have := (netFields_none_iff env (Split spec)).mpr (Or.inr h4)
      rw [hf] at this
      cases this
    constructor
    · rintro ⟨msg, hmsg⟩
      by_cases hd : d = "" ∨ env.isNetworkDriver d = true
      · by_cases hm : m = "" ∨ env.isMac m = true
        · obtain ⟨c, hc⟩ := hacc b v m d hf hd hm
          rw [hc] at hmsg
          cases hmsg
        · refine Or.inr (Or.inr ⟨b, v, m, d, rfl, ?_, ?_⟩)
          · exact fun h0 => hm (Or.inl h0)
          · cases hmac : env.isMac m with
            | false => rfl
            | true => exact absurd (Or.inr hmac) hm
      · refine Or.inr (Or.inl ⟨b, v, m, d, rfl, ?_, ?_⟩)
        · exact fun h0 => hd (Or.inl h0)
        · cases hdrv : env.isNetworkDriver d with
          | false => rfl
          | true => exact absurd (Or.inr hdrv) hd
    · rintro (h4 | ⟨b1, v1, m1, d1, heq, hd0, hdrv⟩ | ⟨b1, v1, m1, d1, heq, hm0, hmac⟩)
      · exact absurd h4 hlen
      · simp only [Option.some.injEq, Prod.mk.injEq] at heq
        obtain ⟨rfl, rfl, rfl, rfl⟩ := heq
        exact ⟨_, congrArg NetSpecOutcome.result
          (processVMNet_invalid_driver env spec a b v m d hf hd0 hdrv)⟩
      · simp only [Option.some.injEq, Prod.mk.injEq] at heq
        obtain ⟨rfl, rfl, rfl, rfl⟩ := heq
        by_cases hd : d ≠ "" ∧ env.isNetworkDriver d = false
        · exact ⟨_, congrArg NetSpecOutcome.result
            (processVMNet_invalid_driver env spec a b v m d hf hd.1 hd.2)⟩
        · exact ⟨_, (processVMNet_invalid_mac env spec a b v m d hf hd hm0 hmac).1⟩

/-- Witness of C11: the alias token `lan1` with a well-formed MAC that is not
registered is accepted. -/
theorem processVMNet_error_iff_witness :
    ∃ c, (processVMNet specNetEnv "lan1,00:11:22:33:44:55" ⟨[], []⟩).result = Except.ok c :=
  (processVMNet_error_iff specNetEnv "lan1,00:11:22:33:44:55" ⟨[], []⟩).2
    "" "lan1" "00:11:22:33:44:55" "" (by decide) (by decide) (by decide)

/-- The VLAN step on a token that `strconv.Atoi` rejects: one `GetOrAllocate`
on the qualified alias, no warning. -/
theorem resolveVLAN_alias {A : Type} (env : NetEnv A) (v : String) (a : A)
    (hv : Atoi v = none) :
    resolveVLAN env v a =
      ((env.GetOrAllocate (qualifyAlias env v) a).1, (env.GetOrAllocate (qualifyAlias env v) a).2,
        [], [VLANCall.GetOrAllocate (qualifyAlias env v)]) := by
  simp [resolveVLAN, hv, qualifyAlias]

/-- The VLAN step on a token that `strconv.Atoi` accepts: the alias of the tag
is read, a warning is written when the tag has a real alias, and the tag is
blacklisted. -/
theorem resolveVLAN_integer {A : Type} (env : NetEnv A) (v : String) (a : A) (n : Int)
    (hv : Atoi v = some n) :
    resolveVLAN env v a =
      (n, env.Blacklist n a,
        (if env.GetAlias n a ≠ "" ∧ env.GetAlias n a ≠ env.BlacklistedVLAN then
          ["VLAN " ++ toString n ++ " has alias " ++ env.GetAlias n a] else []),
        [VLANCall.GetAlias n, VLANCall.Blacklist n]) := by
  simp [resolveVLAN, hv]

/-- An accepted netspec has passed the driver check and the MAC check. -/
theorem processVMNet_ok_checks {A : Type} (env : NetEnv A) (spec : String) (a : A)
    (b v m d : String) (c : NetConfig)
    (hf : netFields env (Split spec) = some (b, v, m, d))
    (hok : (processVMNet env spec a).result = Except.ok c) :
    (d = "" ∨ env.isNetworkDriver d = true) ∧ (m = "" ∨ env.isMac m = true) := by
  have hd : d = "" ∨ env.isNetworkDriver d = true := by
    by_cases h0 : d = ""
    · exact Or.inl h0
    · cases hdrv : env.isNetworkDriver d with
      | true => exact Or.inr rfl
      | false =>
        have := congrArg NetSpecOutcome.result
          (processVMNet_invalid_driver env spec a b v m d hf h0 hdrv)
        rw [hok] at this
        cases this
  refine ⟨hd, ?_⟩
  by_cases h0 : m = ""
  · exact Or.inl h0
  · cases hmac : env.isMac m with
    | true => exact Or.inr rfl
    | false =>
      have hd2 : ¬ (d ≠ "" ∧ env.isNetworkDriver d = false) := by
        rintro ⟨h1, h2⟩
        rcases hd with hd | hd
        · exact h1 hd
        · rw [hd] at h2; cases h2
      have := (processVMNet_invalid_mac env spec a b v m d hf hd2 h0 hmac).1
      rw [hok] at this
      cases this

/-- The allocator of `specNetEnv` is get-or-create: asking again for the same
alias returns the same tag. -/
theorem specNetEnv_getOrAllocate_stable (name : String) (s : AllocatedVLANs) :
    (specNetEnv.GetOrAllocate name (specNetEnv.GetOrAllocate name s).2).1
      = (specNetEnv.GetOrAllocate name s).1 := by
  cases h : s.byAlias.lookup name with
  | some n => simp [specNetEnv, h]
  | none => simp [specNetEnv, h, List.lookup_append]

/-- C12: for an accepted netspec whose VLAN token `v` is rejected by
`strconv.Atoi` (every token that is not a decimal integer is), the returned
VLAN is `allocatedVLANs.GetOrAllocate(q)`, the only call made on the
allocator, where `q` is `v` when `v` contains the alias separator and
namespace, separator, `v` otherwise. With a get-or-create allocator, parsing
the same netspec again in the same namespace returns the same tag. -/
theorem processVMNet_alias_vlan {A : Type} (env : NetEnv A) (spec : String) (a : A)
    (b v m d : String) (c : NetConfig)
    (hf : netFields env (Split spec) = some (b, v, m, d))
    (hv : Atoi v = none)
    (hok : (processVMNet env spec a).result = Except.ok c) :
    c.VLAN = (env.GetOrAllocate (qualifyAlias env v) a).1 ∧
    (processVMNet env spec a).calls = [VLANCall.GetOrAllocate (qualifyAlias env v)] ∧
    (processVMNet env spec a).alloc = (env.GetOrAllocate (qualifyAlias env v) a).2 ∧
    (Contains v env.VLANAliasSep = true → qualifyAlias env v = v) ∧
    (Contains v env.VLANAliasSep = false →
      qualifyAlias env v = env.currentNamespace ++ env.VLANAliasSep ++ v) ∧
    ((∀ name s, (env.GetOrAllocate name (env.GetOrAllocate name s).2).1
        = (env.GetOrAllocate name s).1) →
      ∃ c2, (processVMNet env spec (processVMNet env spec a).alloc).result = Except.ok c2 ∧
        c2.VLAN = c.VLAN) := by
  obtain ⟨hd, hm⟩ := processVMNet_ok_checks env spec a b v m d c hf hok
  have hacc := processVMNet_accepts env spec a b v m d hf hd hm
  have hres := resolveVLAN_alias env v a hv
  have hc : c = newNetConfig (resolveVLAN env v a).1
      (if b = "" then env.DEFAULT_BRIDGE else b) (ToLower env m)
      (if d = "" then VM_NET_DRIVER_DEFAULT else d) := by
    have := hacc.1
    rw [hok] at this
    injection this
  refine ⟨?_, ?_, ?_, ?_, ?_, ?_⟩
  · rw [hc, hres]
    rfl
  · rw [hacc.2.2.1, hres]
  · rw [hacc.2.1, hres]
  · intro h
    simp [qualifyAlias, h]
  · intro h
    simp [qualifyAlias, h]
  · intro hlaw
    have hacc2 := processVMNet_accepts env spec (processVMNet env spec a).alloc b v m d hf hd hm
    refine ⟨_, hacc2.1, ?_⟩
    rw [hc, resolveVLAN_alias env v _ hv, hres, hacc.2.1, hres]
    exact hlaw _ _

/-- Witness of C12: the alias `lan1` parsed twice; both times the tag is 2. -/
theorem processVMNet_alias_vlan_witness :
    (∃ c2, (processVMNet specNetEnv "lan1"
        (processVMNet specNetEnv "lan1" ⟨[], []⟩).alloc).result = Except.ok c2 ∧
      c2.VLAN = (newNetConfig 2 "mega_bridge" "" "e1000").VLAN) ∧
    (newNetConfig 2 "mega_bridge" "" "e1000").VLAN
      = (specNetEnv.GetOrAllocate (qualifyAlias specNetEnv "lan1") ⟨[], []⟩).1 ∧
    qualifyAlias specNetEnv "lan1" = "//lan1" :=
  have h := processVMNet_alias_vlan specNetEnv "lan1" ⟨[], []⟩ "" "lan1" "" ""
    (newNetConfig 2 "mega_bridge" "" "e1000") (by decide) (by decide) rfl
  ⟨h.2.2.2.2.2 specNetEnv_getOrAllocate_stable, h.1, by decide⟩

/-- C13 (counterexample): in `a,100,zz,e1000` the VLAN token parses as 100 and
the driver check passes, and `Blacklist(100)` is called, but the MAC check
rejects the netspec: what is returned is an error and no NetConfig with VLAN
100. -/
theorem C13_blacklisted_but_rejected :
    Split "a,100,zz,e1000" = ["a", "100", "zz", "e1000"] ∧
    Atoi "100" = some 100 ∧
    specNetEnv.isNetworkDriver "e1000" = true ∧
    (processVMNet specNetEnv "a,100,zz,e1000" ⟨[], []⟩).calls.count (VLANCall.Blacklist 100) = 1 ∧
    (∀ c, (processVMNet specNetEnv "a,100,zz,e1000" ⟨[], []⟩).result ≠ Except.ok c) := by
  refine ⟨by decide, by decide, by decide, by decide, ?_⟩
  intro c h
  have h2 : (processVMNet specNetEnv "a,100,zz,e1000" ⟨[], []⟩).result =
      Except.error "malformed netspec, invalid mac address: zz" := rfl
  rw [h2] at h
  cases h

/-- C13 (amended): for every netspec whose VLAN token parses as an integer `n`
and that passes the driver check and the MAC check, processVMNet reads the
alias of `n` and calls `Blacklist(n)` exactly once, whatever the allocator
held; when `n` has an alias that is not the blacklist marker, the warning
naming the tag and the alias is logged; the netspec is accepted and the
returned VLAN equals `n`. -/
theorem processVMNet_integer_blacklists {A : Type} (env : NetEnv A) (spec : String) (a : A)
    (b v m d : String) (n : Int)
    (hf : netFields env (Split spec) = some (b, v, m, d))
    (hd : d = "" ∨ env.isNetworkDriver d = true)
    (hm : m = "" ∨ env.isMac m = true)
    (hv : Atoi v = some n) :
    (processVMNet env spec a).calls = [VLANCall.GetAlias n, VLANCall.Blacklist n] ∧
    (processVMNet env spec a).calls.count (VLANCall.Blacklist n) = 1 ∧
    (processVMNet env spec a).alloc = env.Blacklist n a ∧
    (env.GetAlias n a ≠ "" ∧ env.GetAlias n a ≠ env.BlacklistedVLAN →
      ("VLAN " ++ toString n ++ " has alias " ++ env.GetAlias n a)
        ∈ (processVMNet env spec a).warnings) ∧
    (∃ c, (processVMNet env spec a).result = Except.ok c ∧ c.VLAN = n) := by
  have hres := resolveVLAN_integer env v a n hv
  have hacc := processVMNet_accepts env spec a b v m d hf hd hm
  have hcalls : (processVMNet env spec a).calls = [VLANCall.GetAlias n, VLANCall.Blacklist n] := by
    rw [hacc.2.2.1, hres]
  refine ⟨hcalls, ?_, by rw [hacc.2.1, hres], ?_, ?_⟩
  · rw [hcalls]
    simp
  · intro hal
    apply hacc.2.2.2
    rw [hres]
    simp [hal]
  · refine ⟨_, hacc.1, ?_⟩
    rw [hres]
    rfl

/-- Witness of C13 (amended): VLAN 100 requested explicitly after it has been
allocated to the alias `//lan1`: the warning is logged, the tag is
blacklisted once and returned. -/
theorem processVMNet_integer_blacklists_witness :
    (processVMNet specNetEnv "br0,100" ⟨[("//lan1", 100)], [100]⟩).calls
      = [VLANCall.GetAlias 100, VLANCall.Blacklist 100] ∧
    ("VLAN " ++ toString (100 : Int) ++ " has alias "
        ++ specNetEnv.GetAlias 100 ⟨[("//lan1", 100)], [100]⟩)
      ∈ (processVMNet specNetEnv "br0,100" ⟨[("//lan1", 100)], [100]⟩).warnings ∧
    (∃ c, (processVMNet specNetEnv "br0,100" ⟨[("//lan1", 100)], [100]⟩).result = Except.ok c ∧
      c.VLAN = 100) :=
  have h := processVMNet_integer_blacklists specNetEnv "br0,100" ⟨[("//lan1", 100)], [100]⟩
    "br0" "100" "" "" 100 (by decide) (by decide) (by decide) (by decide)
  ⟨h.1, h.2.2.2.1 (by decide), h.2.2.2.2⟩

/-! ### Not-found errors -/

/-- C15: for every identifier, the message of `vmNotFound` is the marker
`vm not found: ` followed by the identifier unchanged, `isVmNotFound`
recognises it, and dropping the marker gives the identifier back; the messages
of `vmNotRunning`, `vmNotKVM` and `vmNotPhotogenic` are not recognised. -/
theorem isVmNotFound_vmNotFound (s : String) :
    isVmNotFound (vmNotFound s) = true ∧
    vmNotFound s = "vm not found: " ++ s ∧
    String.mk ((vmNotFound s).toList.drop "vm not found: ".length) = s ∧
    isVmNotFound (vmNotRunning s) = false ∧
    isVmNotFound (vmNotKVM s) = false ∧
    isVmNotFound (vmNotPhotogenic s) = false := by
  have hp : "vm not found: ".data = ['v', 'm', ' ', 'n', 'o', 't', ' ', 'f', 'o', 'u', 'n', 'd',
      ':', ' '] := rfl
  have hr : "vm not running: ".data = ['v', 'm', ' ', 'n', 'o', 't', ' ', 'r', 'u', 'n', 'n',
      'i', 'n', 'g', ':', ' '] := rfl
  have hk : "vm is not a KVM: ".data = ['v', 'm', ' ', 'i', 's', ' ', 'n', 'o', 't', ' ', 'a',
      ' ', 'K', 'V', 'M', ':', ' '] := rfl
  have hs : "vm does not support screenshots: ".data = 'v' :: 'm' :: ' ' :: 'd' ::
      "oes not support screenshots: ".data := rfl
  have hlen : "vm not found: ".length = 14 := by decide
  refine ⟨?_, rfl, ?_, ?_, ?_, ?_⟩
  · simp only [isVmNotFound, HasPrefix, vmNotFound, String.toList, String.data_append]
    exact List.isPrefixOf_iff_prefix.mpr (List.prefix_append _ _)
  · simp only [vmNotFound, String.toList, String.data_append, hlen, hp]
    rfl
  · simp only [isVmNotFound, HasPrefix, vmNotRunning, String.toList, String.data_append, hp, hr]
    simp [List.isPrefixOf]
  · simp only [isVmNotFound, HasPrefix, vmNotKVM, String.toList, String.data_append, hp, hk]
    simp [List.isPrefixOf]
  · simp only [isVmNotFound, HasPrefix, vmNotPhotogenic, String.toList, String.data_append, hp,
      hs]
    simp [List.isPrefixOf]

/-! ### `globalVMs` -/

/-- One step of the loop, seen from one host: a contributing response
overwrites the entry, any other response leaves it. -/
theorem recordResponse_apply (res : HostVMs) (r : Response) (host : String) :
    recordResponse res r host =
      match goodPayload host r with
      | some v => some v
      | none => res host := by
  unfold recordResponse goodPayload
  by_cases he : r.Error = ""
  · cases hd : r.Data with
    | vms v =>
      by_cases hh : host = r.Host
      · simp [he, HostVMs.set, hh]
      · have hh2 : ¬ r.Host = host := fun h => hh h.symm
        simp [he, HostVMs.set, hh, hh2]
    | absent => simp [he]
    | other d => simp [he]
  · simp [he]

/-- The loop, seen from one host: the entry is the payload of the last
contributing response, or what the map held before. -/
theorem foldl_recordResponse (rs : List Response) (acc : HostVMs) (host : String) :
    rs.foldl recordResponse acc host =
      match lastGood host rs with
      | some v => some v
      | none => acc host := by
  induction rs generalizing acc with
  | nil => simp [lastGood]
  | cons r rest ih =>
    rw [List.foldl_cons, ih, recordResponse_apply]
    simp only [lastGood]
    cases lastGood host rest <;> simp

/-- A host has a last contributing response exactly when it has a contributing
response. -/
theorem lastGood_isSome (host : String) (rs : List Response) :
    (lastGood host rs).isSome = true ↔ ∃ r ∈ rs, (goodPayload host r).isSome = true := by
  induction rs with
  | nil => simp [lastGood]
  | cons r rest ih =>
    simp only [lastGood, List.mem_cons, exists_eq_or_imp]
    cases h : lastGood host rest with
    | some v =>
      have := ih.mp (by simp [h])
      simp [this]
    | none =>
      have hn : ¬ ∃ r ∈ rest, (goodPayload host r).isSome = true := by
        intro hex
        have := ih.mpr hex
        simp [h] at this
      simp [hn]

/-- The last contributing response wins. -/
theorem lastGood_append (host : String) (pre post : List Response) (r : Response) (v : VMs)
    (hr : goodPayload host r = some v) (hpost : ∀ x ∈ post, goodPayload host x = none) :
    lastGood host (pre ++ r :: post) = some v := by
  have hp : lastGood host post = none := by
    induction post with
    | nil => rfl
    | cons x xs ih =>
      have hx := hpost x (by simp)
      have hxs := ih (fun y hy => hpost y (by simp [hy]))
      simp [lastGood, hxs, hx]
  induction pre with
  | nil => simp [lastGood, hp, hr]
  | cons x xs ih => simp [lastGood, ih]

/-- What `goodPayload` returns, in words: a payload exactly for a response of
that host with an empty error and `VMs` data. -/
theorem goodPayload_eq_some (host : String) (r : Response) (v : VMs) :
    goodPayload host r = some v ↔
      r.Host = host ∧ r.Error = "" ∧ r.Data = ResponseData.vms v := by
  unfold goodPayload
  by_cases h : r.Host = host ∧ r.Error = ""
  · cases hd : r.Data <;> simp [h]
  · simp only [h, if_false]
    constructor
    · intro hn
      cases hn
    · rintro ⟨h1, h2, _⟩
      exact absurd ⟨h1, h2⟩ h

/-- Responses that carry an error do not influence the map. -/
theorem foldl_recordResponse_filter (rs : List Response) (acc : HostVMs) :
    rs.foldl recordResponse acc
      = (rs.filter (fun r => r.Error = "")).foldl recordResponse acc := by
  induction rs generalizing acc with
  | nil => rfl
  | cons r rest ih =>
    by_cases he : r.Error = ""
    · simp [List.filter, he, ih]
    · have hskip : recordResponse acc r = acc := by simp [recordResponse, he]
      simp [List.filter, he, ih, hskip]

/-- Filtering every batch filters the sequence of all responses. -/
theorem flatten_map_filter (q : Response → Bool) (batches : List (List Response)) :
    (batches.map (List.filter q)).flatten = batches.flatten.filter q := by
  induction batches with
  | nil => rfl
  | cons b bs ih =>
    rw [List.map_cons, List.flatten_cons, List.flatten_cons, List.filter_append, ih]

/-- C14: whenever the command lock is available to the call (the caller holds
it and says so, or it is free), globalVMs returns a map, never an error. A host
is a key exactly when some response of that host has an empty Error and a VMs
payload; the value of a host is the payload of the last such response; the
map is the one obtained from the batches with every error response removed, so
an error response stops nothing; and every reported error is logged. -/
theorem globalVMs_collects (hasLock lockHeld : Bool) (batches : List (List Response))
    (havail : hasLock = true ∨ lockHeld = false) :
    ∃ res, (globalVMs hasLock lockHeld batches).returned = some res ∧
      (∀ host, (res host).isSome = true ↔
        ∃ resp ∈ batches.flatten, resp.Host = host ∧ resp.Error = "" ∧
          ∃ v, resp.Data = ResponseData.vms v) ∧
      (∀ host pre resp post v, batches.flatten = pre ++ resp :: post →
        resp.Host = host → resp.Error = "" → resp.Data = ResponseData.vms v →
        (∀ x ∈ post, ¬ (x.Host = host ∧ x.Error = "" ∧ ∃ u, x.Data = ResponseData.vms u)) →
        res host = some v) ∧
      res = collectVMs (batches.map (List.filter (fun r => r.Error = ""))) ∧
      (∀ resp ∈ batches.flatten, resp.Error ≠ "" →
        resp.Error ∈ (globalVMs hasLock lockHeld batches).log) := by
  have hret : (globalVMs hasLock lockHeld batches).returned = some (collectVMs batches) ∧
      (globalVMs hasLock lockHeld batches).log = batches.flatten.flatMap logResponse := by
    rcases havail with h | h
    · subst h
      exact ⟨rfl, rfl⟩
    · subst h
      cases hasLock <;> exact ⟨rfl, rfl⟩
  have hval : ∀ host, collectVMs batches host = lastGood host batches.flatten := by
    intro host
    unfold collectVMs
    rw [foldl_recordResponse]
    cases lastGood host batches.flatten <;> rfl
  refine ⟨collectVMs batches, hret.1, ?_, ?_, ?_, ?_⟩
  · intro host
    rw [hval, lastGood_isSome]
    constructor
    · rintro ⟨r, hr, hsome⟩
      obtain ⟨v, hv⟩ := Option.isSome_iff_exists.mp hsome
      obtain ⟨h1, h2, h3⟩ := (goodPayload_eq_some host r v).mp hv
      exact ⟨r, hr, h1, h2, v, h3⟩
    · rintro ⟨r, hr, h1, h2, v, h3⟩
      refine ⟨r, hr, ?_⟩
      rw [(goodPayload_eq_some host r v).mpr ⟨h1, h2, h3⟩]
      rfl
  · intro host pre resp post v hsplit h1 h2 h3 hpost
    rw [hval, hsplit]
    apply lastGood_append host pre post resp v ((goodPayload_eq_some host resp v).mpr ⟨h1, h2, h3⟩)
    intro x hx
    cases hg : goodPayload host x with
    | none => rfl
    | some u =>
      obtain ⟨g1, g2, g3⟩ := (goodPayload_eq_some host x u).mp hg
      exact absurd ⟨g1, g2, u, g3⟩ (hpost x hx)
  · unfold collectVMs
    rw [flatten_map_filter, ← foldl_recordResponse_filter]
  · intro resp hresp herr
    rw [hret.2, List.mem_flatMap]
    exact ⟨resp, hresp, by simp [logResponse, herr]⟩

/-- Witness of C14: three hosts answer, one of them with an error and one
twice; the map has the two healthy hosts and the later payload. -/
theorem globalVMs_collects_witness :
    ∃ res, (globalVMs false false
        [[⟨"h1", "", [], [], "", ResponseData.vms []⟩],
         [⟨"h2", "", [], [], "connection refused", ResponseData.absent⟩],
         [⟨"h1", "", [], [], "", ResponseData.vms [sampleVM]⟩,
          ⟨"h3", "", [], [], "", ResponseData.vms []⟩]]).returned = some res ∧
      res "h1" = some [sampleVM] ∧ res "h2" = none ∧ res "h3" = some [] := by
  obtain ⟨res, hret, _, hlast, hfilt, _⟩ := globalVMs_collects false false
    [[⟨"h1", "", [], [], "", ResponseData.vms []⟩],
     [⟨"h2", "", [], [], "connection refused", ResponseData.absent⟩],
     [⟨"h1", "", [], [], "", ResponseData.vms [sampleVM]⟩,
      ⟨"h3", "", [], [], "", ResponseData.vms []⟩]] (Or.inr rfl)
  refine ⟨res, hret, ?_, ?_, ?_⟩
  · rw [hfilt]
    decide
  · rw [hfilt]
    decide
  · rw [hfilt]
    decide

/-- C20: with the command lock as explicit state, globalVMs called with
hasLock = true never touches the lock; called with hasLock = false on a free
lock it acquires the lock once, then issues the query, then releases the lock;
called with hasLock = false on a held lock it blocks in the acquisition and
does nothing else. In every case the state of the lock after the call is its
state before the call. -/
theorem globalVMs_lock (batches : List (List Response)) :
    (∀ lockHeld,
      CmdEvent.Lock ∉ (globalVMs true lockHeld batches).events ∧
      CmdEvent.Unlock ∉ (globalVMs true lockHeld batches).events ∧
      (globalVMs true lockHeld batches).events = [CmdEvent.Query] ∧
      (globalVMs true lockHeld batches).returned = some (collectVMs batches)) ∧
    ((globalVMs false false batches).events
        = [CmdEvent.Lock, CmdEvent.Query, CmdEvent.Unlock] ∧
      (globalVMs false false batches).events.count CmdEvent.Lock = 1 ∧
      (globalVMs false false batches).returned = some (collectVMs batches)) ∧
    ((globalVMs false true batches).returned = none ∧
      (globalVMs false true batches).events = []) ∧
    (∀ hasLock lockHeld, (globalVMs hasLock lockHeld batches).lockHeld = lockHeld) := by
  refine ⟨?_, ?_, ?_, ?_⟩
  · intro lockHeld
    simp [globalVMs]
  · simp [globalVMs]
  · simp [globalVMs]
  · intro hasLock lockHeld
    cases hasLock <;> cases lockHeld <;> simp [globalVMs]

/-! ### CLI handlers -/

/-- The handler reads the tag name under the key `key`; with no such key in the
argument map it clears with the wildcard, whatever else the map binds. -/
theorem cliClearVmTag_without_key (Wildcard : String) (args : StringArgs) (t : String)
    (hkey : args.lookup "key" = none) (htarget : args.lookup "target" = some t) :
    cliClearVmTag Wildcard args = (GoResult.nil, [VMsCall.ClearTags t Wildcard]) := by
  simp [cliClearVmTag, hkey, htarget]

/-- C16 (code evaluated at the failing input): the command `clear vm tag 0 foo`
matches the pattern `clear vm tag <target> [tag]`, which binds `target` to `0`
and `tag` to `foo`; the handler looks the tag name up under `key`, finds
nothing and calls ClearTags with the wildcard, clearing every tag of VM 0
instead of the tag `foo`. -/
theorem C16_clear_tag_uses_wildcard :
    cliClearVmTag "all" [("target", "0"), ("tag", "foo")]
      = (GoResult.nil, [VMsCall.ClearTags "0" "all"]) ∧
    cliClearVmTag "all" [("target", "0"), ("tag", "foo")]
      ≠ (GoResult.nil, [VMsCall.ClearTags "0" "foo"]) ∧
    cliClearVmTag "all" [("target", "0"), ("tag", "foo")]
      = cliClearVmTag "all" [("target", "0")] := by
  decide

/-- A name passes the checks of the loop exactly when it is not reserved, is
not an integer, and, unless it is empty, stands at no other position. -/
theorem checkLaunchName_none_iff (isReserved : String → Bool) (names : List String) (i : Nat)
    (name : String) :
    checkLaunchName isReserved names i name = none ↔
      isReserved name = false ∧ Atoi name = none ∧
      ¬ (name ≠ "" ∧ ∃ j, j ≠ i ∧ names[j]? = some name) := by
  unfold checkLaunchName
  by_cases hr : isReserved name = true
  · simp [hr]
  · have hr2 : isReserved name = false := by
      cases h : isReserved name with
      | false => rfl
      | true => exact absurd h hr
    cases ha : Atoi name with
    | some n => simp [hr2]
    | none =>
      simp only [hr2, Bool.false_eq_true, if_false, Option.isSome_none, true_and]
      by_cases hdup : names.enum.any (fun jn => i ≠ jn.1 ∧ name = jn.2 ∧ name ≠ "") = true
      · simp only [hdup, if_true]
        simp only [List.any_eq_true, decide_eq_true_eq] at hdup
        obtain ⟨⟨j, x⟩, hmem, hij, hx, hne⟩ := hdup
        have hget := List.mk_mem_enum_iff_getElem?.mp hmem
        simp only at hij hx
        subst hx
        constructor
        · intro h
          cases h
        · intro h
          exact absurd ⟨hne, j, Ne.symm hij, hget⟩ h
      · simp only [hdup, Bool.false_eq_true, if_false, true_iff]
        rintro ⟨hne, j, hji, hget⟩
        apply hdup
        simp only [List.any_eq_true, decide_eq_true_eq]
        exact ⟨(j, name), List.mk_mem_enum_iff_getElem?.mpr hget, Ne.symm hji, rfl, hne⟩

/-- The loop finds no error exactly when every name passes at its position. -/
theorem checkLaunchNamesFrom_none_iff (isReserved : String → Bool) (names : List String)
    (rest : List String) (i : Nat) :
    checkLaunchNamesFrom isReserved names i rest = none ↔
      ∀ k name, rest[k]? = some name → checkLaunchName isReserved names (i + k) name = none := by
  induction rest generalizing i with
  | nil => simp [checkLaunchNamesFrom]
  | cons x xs ih =>
    simp only [checkLaunchNamesFrom]
    cases hx : checkLaunchName isReserved names i x with
    | some e =>
      simp only [false_iff, reduceCtorEq]
      intro h
      have := h 0 x (by simp)
      rw [Nat.add_zero, hx] at this
      cases this
    | none =>
      simp only
      rw [ih]
      constructor
      · intro h k name hk
        cases k with
        | zero =>
          simp only [List.getElem?_cons_zero, Option.some.injEq] at hk
          subst hk
          exact hx
        | succ k =>
          simp only [List.getElem?_cons_succ] at hk
          have := h k name hk
          rwa [Nat.add_assoc, Nat.add_comm 1 k] at this
      · intro h k name hk
        have := h (k + 1) name (by simpa using hk)
        rwa [Nat.add_assoc, Nat.add_comm 1 k]

/-- The loop of `cliVmLaunch` finds no error exactly when no name is reserved,
no name is an integer, and no non-empty name stands at two positions. -/
theorem checkLaunchNames_none_iff (isReserved : String → Bool) (names : List String) :
    checkLaunchNames isReserved names = none ↔
      ∀ (i : Nat) (name : String), names[i]? = some name →
        isReserved name = false ∧ Atoi name = none ∧
        ¬ (name ≠ "" ∧ ∃ j : Nat, j ≠ i ∧ names[j]? = some name) := by
  unfold checkLaunchNames
  rw [checkLaunchNamesFrom_none_iff]
  constructor
  · intro h i name hi
    have := h i name hi
    rw [Nat.zero_add] at this
    exact (checkLaunchName_none_iff isReserved names i name).mp this
  · intro h i name hi
    rw [Nat.zero_add]
    exact (checkLaunchName_none_iff isReserved names i name).mpr (h i name hi)

/-- C17: in a local launch (no namespace active, or the command comes from the
active namespace) whose name argument expands to `names`: if some name is a
reserved word, or parses as an integer, or is non-empty and stands at two
different positions, cliVmLaunch returns an error and never reaches
`vms.Launch`, the only place where VMs are created and IDs drawn; and a list
made only of empty names is no collision: with the empty name not reserved, at
most one name or no staged UUID, and a VM type in the command, the handler
goes on to `vms.Launch(names, vmType)`. -/
theorem cliVmLaunch_checks_names (env : LaunchEnv) (c : Command) (names : List String)
    (hlocal : env.activeNamespace = none ∨ env.activeNamespace = some c.Source)
    (hexp : env.ExpandLaunchNames (lookupString c.StringArgs "name") = Except.ok names) :
    ((∃ name ∈ names, env.isReserved name = true ∨ (Atoi name).isSome = true ∨
        (name ≠ "" ∧ ∃ i j : Nat, i ≠ j ∧ names[i]? = some name ∧ names[j]? = some name)) →
      (∃ msg, cliVmLaunch env c = LaunchStep.failed msg) ∧
      (∀ ns t nb, cliVmLaunch env c ≠ LaunchStep.launch ns t nb)) ∧
    ((∀ name ∈ names, name = "") → env.isReserved "" = false →
      (names.length ≤ 1 ∨ env.stagedUUID = "") → c.StringArgs ≠ [] →
      ∀ vmType, findVMType c.BoolArgs = some vmType →
        ∃ noblock, cliVmLaunch env c = LaunchStep.launch names vmType noblock) := by
  have hns : ¬ (env.activeNamespace ≠ none ∧ env.activeNamespace ≠ some c.Source) := by
    rintro ⟨h1, h2⟩
    rcases hlocal with h | h
    · exact h1 h
    · exact h2 h
  constructor
  · rintro ⟨name, hmem, hbad⟩
    have hfail : ∃ msg, cliVmLaunch env c = LaunchStep.failed msg := by
      by_cases h1 : env.activeNamespace = none ∧ c.StringArgs.length = 0
      · refine ⟨"invalid command when namespace is not active", ?_⟩
        simp only [cliVmLaunch, if_pos h1]
      · by_cases h2 : names.length > 1 ∧ env.stagedUUID ≠ ""
        · refine ⟨"cannot launch multiple VMs with a pre-configured UUID", ?_⟩
          simp only [cliVmLaunch, if_neg h1, if_neg hns, hexp, if_pos h2]
        · simp only [cliVmLaunch, if_neg h1, if_neg hns, hexp, if_neg h2]
          cases hchk : checkLaunchNames env.isReserved names with
          | some e => exact ⟨e, rfl⟩
          | none =>
            exfalso
            have hall := (checkLaunchNames_none_iff env.isReserved names).mp hchk
            rcases hbad with hres | hint | ⟨hne, i, j, hij, hi, hj⟩
            · obtain ⟨k, hk⟩ := List.getElem?_of_mem hmem
              have := (hall k name hk).1
              rw [hres] at this
              cases this
            · obtain ⟨k, hk⟩ := List.getElem?_of_mem hmem
              have := (hall k name hk).2.1
              rw [this] at hint
              cases hint
            · exact (hall i name hi).2.2 ⟨hne, j, Ne.symm hij, hj⟩
    refine ⟨hfail, ?_⟩
    intro ns t nb h
    obtain ⟨msg, hmsg⟩ := hfail
    rw [hmsg] at h
    cases h
  · intro hempty hres huuid hargs vmType hty
    have hchk : checkLaunchNames env.isReserved names = none := by
      rw [checkLaunchNames_none_iff]
      intro i name hi
      have hname : name = "" := hempty name (List.getElem?_mem hi)
      subst hname
      exact ⟨hres, by decide, fun h => h.1 rfl⟩
    have h1 : ¬ (env.activeNamespace = none ∧ c.StringArgs.length = 0) := by
      rintro ⟨_, h0⟩
      exact hargs (List.length_eq_zero.mp h0)
    have h2 : ¬ (names.length > 1 ∧ env.stagedUUID ≠ "") := by
      rintro ⟨hl, hu⟩
      rcases huuid with h | h
      · omega
      · exact hu h
    refine ⟨(match c.BoolArgs.lookup "noblock" with
      | some v => v
      | none => false), ?_⟩
    simp only [cliVmLaunch, if_neg h1, if_neg hns, hexp, if_neg h2, hchk, hty]

/-- Witness of C17: `vm launch kvm a,b,a` names `a` twice and is refused;
two unnamed VMs are launched. -/
theorem cliVmLaunch_checks_names_witness :
    (∃ msg, cliVmLaunch sampleLaunchEnv
      ⟨"vm launch kvm a,b,a", [("name", "a,b,a")], [("kvm", true)], ""⟩
        = LaunchStep.failed msg) ∧
    (∃ noblock, cliVmLaunch sampleLaunchEnv
      ⟨"vm launch kvm ,", [("name", ",")], [("kvm", true)], ""⟩
        = LaunchStep.launch ["", ""] 1 noblock) :=
  ⟨((cliVmLaunch_checks_names sampleLaunchEnv
      ⟨"vm launch kvm a,b,a", [("name", "a,b,a")], [("kvm", true)], ""⟩ ["a", "b", "a"]
      (Or.inl rfl) rfl).1
      ⟨"a", by decide, Or.inr (Or.inr ⟨by decide, 0, 2, by decide, by decide, by decide⟩)⟩).1,
   (cliVmLaunch_checks_names sampleLaunchEnv
      ⟨"vm launch kvm ,", [("name", ",")], [("kvm", true)], ""⟩ ["", ""]
      (Or.inl rfl) rfl).2
      (by decide) (by decide) (Or.inr rfl) (by decide) 1 (by decide)⟩

/-! ### `NewVM` -/

/-- The built-in `copy` into a fresh slice of the same length yields the source. -/
theorem goCopy_fresh (src : List NetConfig) :
    goCopy (List.replicate src.length zeroNetConfig) src = src := by
  simp [goCopy]

/-- The deep copy of a configuration equals the configuration. -/
theorem BaseConfig_Copy_eq (old : BaseConfig) : old.Copy = old := by
  simp [BaseConfig.Copy, goCopy_fresh]

/-- C18: NewVM receives exactly one ID `i` from the ID channel and returns a
VM with ID `i`, the given name or `vm-i` when the name is empty, state
BUILDING, no tags, instance path the base directory joined with the decimal
form of `i`, the staged UUID when there is one and a generated one otherwise,
and the staged network list, element for element in the same order. -/
theorem NewVM_spec {S G : Type} (env : NewVMEnv S G) (vmConfig : BaseConfig) (name : String)
    (ids : S) (g : G) :
    (NewVM env vmConfig name ids g).1.ID = (env.receiveID ids).1 ∧
    (NewVM env vmConfig name ids g).2.1 = (env.receiveID ids).2 ∧
    (NewVM env vmConfig name ids g).1.Name =
      (if name = "" then "vm-" ++ Itoa (env.receiveID ids).1 else name) ∧
    (NewVM env vmConfig name ids g).1.State = env.VM_BUILDING ∧
    (NewVM env vmConfig name ids g).1.Tags = [] ∧
    (NewVM env vmConfig name ids g).1.instancePath =
      env.filepathJoin env.f_base (Itoa (env.receiveID ids).1) ∧
    (NewVM env vmConfig name ids g).1.UUID =
      (if vmConfig.UUID = "" then (env.generateUUID g).1 else vmConfig.UUID) ∧
    (NewVM env vmConfig name ids g).2.2 =
      (if vmConfig.UUID = "" then (env.generateUUID g).2 else g) ∧
    (NewVM env vmConfig name ids g).1.Networks = vmConfig.Networks ∧
    (NewVM env vmConfig name ids g).1.Networks.length = vmConfig.Networks.length ∧
    (∀ i : Nat, (NewVM env vmConfig name ids g).1.Networks[i]? = vmConfig.Networks[i]?) := by
  have hc := BaseConfig_Copy_eq vmConfig
  have hn : (NewVM env vmConfig name ids g).1.Networks = vmConfig.Networks := by
    simp only [NewVM, hc]
  refine ⟨rfl, rfl, rfl, rfl, rfl, rfl, ?_, ?_, hn, by rw [hn], fun i => by rw [hn]⟩
  · simp only [NewVM, hc]
    split <;> rfl
  · simp only [NewVM, hc]
    split <;> rfl

/-! ### External dependencies -/

/-- The error list of `checkProcesses` holds the `LookPath` error of every
binary that is not found. -/
theorem missingProcesses_complete (env : ExternalEnv) (order : List (String × String))
    (entry : String × String) (e : String) (hmem : entry ∈ order)
    (hmiss : env.LookPath (resolveProcess env entry) = Except.error e) :
    e ∈ missingProcesses env order := by
  induction order with
  | nil => cases hmem
  | cons x xs ih =>
    rcases List.mem_cons.mp hmem with h | h
    · subst h
      simp [missingProcesses, hmiss]
    · have := ih h
      simp only [missingProcesses]
      split
      · exact List.mem_cons_of_mem _ this
      · exact this

/-- No binary is missing exactly when every lookup succeeds. -/
theorem missingProcesses_eq_nil_iff (env : ExternalEnv) (order : List (String × String)) :
    missingProcesses env order = [] ↔
      ∀ entry ∈ order, ∃ path, env.LookPath (resolveProcess env entry) = Except.ok path := by
  induction order with
  | nil => simp [missingProcesses]
  | cons x xs ih =>
    simp only [missingProcesses, List.mem_cons, forall_eq_or_imp]
    cases hx : env.LookPath (resolveProcess env x) with
    | error e => simp
    | ok path => simp [ih]

/-- When a binary is missing, `checkExternal` returns the joined lookup errors
of all the missing binaries, and nothing about versions. -/
theorem checkExternal_missing (env : ExternalEnv) (order : List (String × String))
    (h : missingProcesses env order ≠ []) :
    checkExternal env order = GoResult.err (Join (missingProcesses env order) "\n") := by
  have hlen : (missingProcesses env order).length > 0 := List.length_pos.mpr h
  simp [checkExternal, checkProcesses, hlen]

/-- The result of `checkExternal` is nil exactly when no binary is missing,
the three version functions succeed and no version is below its minimum. -/
theorem checkExternal_nil_iff (env : ExternalEnv) (order : List (String × String)) :
    checkExternal env order = GoResult.nil ↔
      missingProcesses env order = [] ∧
      (∃ q, env.qemuVersion = Except.ok q ∧ q.lt MIN_QEMU = false) ∧
      (∃ o, env.ovsVersion = Except.ok o ∧ o.lt MIN_OVS = false) ∧
      (∃ d, env.dnsmasqVersion = Except.ok d ∧ d.lt MIN_DNSMASQ = false) := by
  have hv : ∀ name (version : Except String Version) (minimum : Version),
      checkVersion env name version minimum = GoResult.nil ↔
        ∃ v, version = Except.ok v ∧ v.lt minimum = false := by
    intro name version minimum
    cases version with
    | error e => simp [checkVersion]
    | ok v =>
      cases hlt : v.lt minimum <;> simp [checkVersion, hlt]
  by_cases hm : missingProcesses env order = []
  · have hp : checkProcesses env order = GoResult.nil := by simp [checkProcesses, hm]
    simp only [checkExternal, hp, hm, true_and]
    rw [← hv "kvm", ← hv "ovs", ← hv "dnsmasq"]
    cases h1 : checkVersion env "kvm" env.qemuVersion MIN_QEMU with
    | nil =>
      cases h2 : checkVersion env "ovs" env.ovsVersion MIN_OVS with
      | nil => simp
      | err e => simp
      | panicked e => simp
    | err e => simp
    | panicked e => simp
  · rw [checkExternal_missing env order hm]
    simp [hm]

/-- C19 (code evaluated at the failing input): on a machine where every binary
is found and both kvm (1.0, minimum 1.6) and ovs (1.0, minimum 1.4) are below
their minimum versions, `checkExternal` returns at the first version check: the
error names kvm only and does not mention ovs. With `tc` missing as well, the
error is the lookup error of `tc` alone and mentions no version at all. -/
theorem C19_reports_first_failure_only :
    missingProcesses oldVersionsEnv defaultExternalProcesses = [] ∧
    (⟨10, 1⟩ : Version).lt MIN_QEMU = true ∧
    (⟨10, 1⟩ : Version).lt MIN_OVS = true ∧
    checkExternal oldVersionsEnv defaultExternalProcesses
      = GoResult.err "kvm version 1 does not meet minimum version 1.6" ∧
    Contains "kvm version 1 does not meet minimum version 1.6" "ovs" = false ∧
    checkExternal
      { oldVersionsEnv with
        LookPath := fun p =>
          if p = "tc" then Except.error "exec: \"tc\": executable file not found in $PATH"
          else Except.ok ("/usr/bin/" ++ p) }
      defaultExternalProcesses
      = GoResult.err "exec: \"tc\": executable file not found in $PATH" ∧
    Contains "exec: \"tc\": executable file not found in $PATH" "version" = false := by
  refine ⟨by decide, by decide, by decide, by decide, by decide, by decide, by decide⟩

/-! ### `cliVMSuggest` -/

/-- The loop of `cliVMSuggest` as a filter: of the VMs whose state meets the
mask, the decimal IDs (or the names) that start with the typed text. -/
theorem suggestLoop_eq (isID : Bool) (pre : String) (mask : VMState) (visible : List BaseVM) :
    suggestLoop isID pre mask visible =
      (((visible.filter (fun vm => vm.State &&& mask ≠ 0)).map
        (fun vm => if isID then Itoa vm.ID else vm.Name)).filter (fun s => HasPrefix s pre)) := by
  induction visible with
  | nil => rfl
  | cons vm rest ih =>
    unfold suggestLoop
    by_cases hm : vm.State &&& mask = 0
    · simp [hm, ih]
    · cases isID with
      | true =>
        by_cases hp : HasPrefix (Itoa vm.ID) pre = true
        · simp [hm, hp, ih]
        · simp [hm, hp, ih]
      | false =>
        by_cases hp : HasPrefix vm.Name pre = true
        · simp [hm, hp, ih]
        · simp [hm, hp, ih]

/-- C21: every suggestion starts with the typed text and is the decimal ID or
the name of a visible VM whose state meets the mask; when the typed text
parses as an integer the suggestions are exactly the decimal IDs of the
mask-matching VMs that start with it, and otherwise exactly the names of the
mask-matching VMs that start with it, in the order of the VMs. -/
theorem cliVMSuggest_spec (visible : List BaseVM) (pre : String) (mask : VMState) :
    (∀ s ∈ cliVMSuggest visible pre mask,
      HasPrefix s pre = true ∧
      ∃ vm ∈ visible, vm.State &&& mask ≠ 0 ∧ (s = Itoa vm.ID ∨ s = vm.Name)) ∧
    ((Atoi pre).isSome = true →
      cliVMSuggest visible pre mask =
        (((visible.filter (fun vm => vm.State &&& mask ≠ 0)).map (fun vm => Itoa vm.ID)).filter
          (fun s => HasPrefix s pre))) ∧
    ((Atoi pre).isSome = false →
      cliVMSuggest visible pre mask =
        (((visible.filter (fun vm => vm.State &&& mask ≠ 0)).map (fun vm => vm.Name)).filter
          (fun s => HasPrefix s pre))) := by
  refine ⟨?_, ?_, ?_⟩
  · intro s hs
    unfold cliVMSuggest at hs
    rw [suggestLoop_eq] at hs
    simp only [List.mem_filter, List.mem_map, decide_eq_true_eq] at hs
    obtain ⟨⟨vm, ⟨hvm, hmask⟩, hsv⟩, hpre⟩ := hs
    refine ⟨hpre, vm, hvm, hmask, ?_⟩
    cases h : (Atoi pre).isSome with
    | true =>
      rw [h] at hsv
      exact Or.inl hsv.symm
    | false =>
      rw [h] at hsv
      exact Or.inr hsv.symm
  · intro h
    unfold cliVMSuggest
    rw [suggestLoop_eq, h]
    simp
  · intro h
    unfold cliVMSuggest
    rw [suggestLoop_eq, h]
    simp

/-- Witness of C21: among the sample VM (ID 0, `vm-0`, RUNNING) and a VM 10
named `web` that has QUIT, the text `vm` suggests the name of the first when
the mask is RUNNING, and the text `1` suggests nothing. -/
theorem cliVMSuggest_spec_witness :
    cliVMSuggest [sampleVM, { sampleVM with ID := 10, Name := "web", State := VM_QUIT }]
      "vm" VM_RUNNING = ["vm-0"] ∧
    cliVMSuggest [sampleVM, { sampleVM with ID := 10, Name := "web", State := VM_QUIT }]
      "1" VM_RUNNING = [] ∧
    cliVMSuggest [sampleVM, { sampleVM with ID := 10, Name := "web", State := VM_QUIT }]
      "1" (VM_RUNNING ||| VM_QUIT) = ["10"] :=
  ⟨((cliVMSuggest_spec
      [sampleVM, { sampleVM with ID := 10, Name := "web", State := VM_QUIT }]
      "vm" VM_RUNNING).2.2 (by decide)).trans (by decide),
   ((cliVMSuggest_spec
      [sampleVM, { sampleVM with ID := 10, Name := "web", State := VM_QUIT }]
      "1" VM_RUNNING).2.1 (by decide)).trans (by decide),
   ((cliVMSuggest_spec
      [sampleVM, { sampleVM with ID := 10, Name := "web", State := VM_QUIT }]
      "1" (VM_RUNNING ||| VM_QUIT)).2.1 (by decide)).trans (by decide)⟩

/-! ### `cliVmHotplug`, the `add` branch -/

/-- A value inside the range of a 64-bit `int` is not changed by wrapping. -/
theorem wrapInt_of_range (x : Int) (hlo : -(2 : Int) ^ 63 ≤ x) (hhi : x < (2 : Int) ^ 63) :
    wrapInt x = x := by
  unfold wrapInt
  have h1 : (0 : Int) ≤ x + 2 ^ 63 := by omega
  have h2 : x + 2 ^ 63 < (2 : Int) ^ 64 := by omega
  rw [Int.emod_eq_of_lt h1 h2]
  omega

/-- On keys from 0 to below the largest `int`, the ID loop only moves the ID
up, ends above every key it has seen, and ends either where it started or
right above one of the keys. -/
theorem nextHotplugID_spec (m : HotplugMap) (id : Int)
    (hkeys : ∀ p ∈ m, 0 ≤ p.1 ∧ p.1 < (2 : Int) ^ 63 - 1) :
    id ≤ nextHotplugID m id ∧
    (∀ p ∈ m, p.1 < nextHotplugID m id) ∧
    (nextHotplugID m id = id ∨ ∃ p ∈ m, nextHotplugID m id = p.1 + 1) := by
  induction m generalizing id with
  | nil => simp [nextHotplugID]
  | cons x rest ih =>
    obtain ⟨k, v⟩ := x
    have hk0 := hkeys (k, v) (by simp)
    have hw : wrapInt (k + 1) = k + 1 :=
      wrapInt_of_range (k + 1) (by have := hk0.1; omega) (by have := hk0.2; omega)
    simp only [nextHotplugID, hw]
    obtain ⟨h1, h2, h3⟩ := ih (if k ≥ id then k + 1 else id)
      (fun p hp => hkeys p (List.mem_cons_of_mem _ hp))
    have hid : id ≤ (if k ≥ id then k + 1 else id) := by
      split <;> omega
    have hk : k < (if k ≥ id then k + 1 else id) := by
      split <;> omega
    refine ⟨by omega, ?_, ?_⟩
    · intro p hp
      rcases List.mem_cons.mp hp with h | h
      · subst h
        exact lt_of_lt_of_le hk h1
      · exact h2 p h
    · rcases h3 with h | ⟨p, hp, h⟩
      · by_cases hge : k ≥ id
        · right
          refine ⟨(k, v), by simp, ?_⟩
          rw [h, if_pos hge]
        · left
          rw [h, if_neg hge]
      · right
        exact ⟨p, List.mem_cons_of_mem _ hp, h⟩

/-- Setting a key that the map does not hold appends the entry. -/
theorem hotplugSet_fresh (m : HotplugMap) (key : Int) (value : String)
    (h : ∀ p ∈ m, p.1 ≠ key) : hotplugSet m key value = m ++ [(key, value)] := by
  induction m with
  | nil => rfl
  | cons x rest ih =>
    obtain ⟨k, v⟩ := x
    have hk : k ≠ key := h (k, v) (by simp)
    have := ih (fun p hp => h p (List.mem_cons_of_mem _ hp))
    simp [hotplugSet, hk, this]

/-- After setting a key, the key is bound to the value and every other key is
bound as before. -/
theorem hotplugSet_lookup (m : HotplugMap) (key : Int) (value : String) :
    (hotplugSet m key value).lookup key = some value ∧
    (∀ k, k ≠ key → (hotplugSet m key value).lookup k = m.lookup k) := by
  have hself : ∀ x : Int, (x == x) = true := fun x => beq_self_eq_true x
  have hne : ∀ x y : Int, x ≠ y → (x == y) = false := fun x y h => beq_eq_false_iff_ne.mpr h
  induction m with
  | nil =>
    refine ⟨by simp only [hotplugSet, List.lookup, hself], ?_⟩
    intro k hk
    simp only [hotplugSet, List.lookup, hne k key hk]
  | cons x rest ih =>
    obtain ⟨a, v⟩ := x
    by_cases ha : a = key
    · subst ha
      refine ⟨by simp only [hotplugSet, if_true, List.lookup, hself], ?_⟩
      intro k hk
      simp only [hotplugSet, if_true, List.lookup, hne k a hk]
    · have hka : key ≠ a := fun h => ha h.symm
      refine ⟨by simp only [hotplugSet, if_neg ha, List.lookup, hne key a hka, ih.1], ?_⟩
      intro k hk
      by_cases hkk : k = a
      · subst hkk
        simp only [hotplugSet, if_neg ha, List.lookup, hself]
      · simp only [hotplugSet, if_neg ha, List.lookup, hne k a hkk, ih.2 k hk]

/-- C22 (counterexample): a hotplug map with non-negative keys that holds the
largest `int`. Visited in the order 1, 9223372036854775807, 0, the loop wraps
`k + 1` to the smallest `int` and then ends at 1, which is a key of the map
and not one more than the highest key; the add then overwrites the file of
the existing entry 1 and the map gains no entry. -/
theorem C22_largest_key_wraps :
    (∀ p ∈ [((1 : Int), "b.img"), (9223372036854775807, "x.img"), (0, "a.img")], 0 ≤ p.1) ∧
    generateHotplugID [(1, "b.img"), (9223372036854775807, "x.img"), (0, "a.img")] = 1 ∧
    generateHotplugID [(1, "b.img"), (9223372036854775807, "x.img"), (0, "a.img")]
      ≠ 9223372036854775807 + 1 ∧
    ¬ (∀ p ∈ [((1 : Int), "b.img"), (9223372036854775807, "x.img"), (0, "a.img")],
      p.1 ≠ generateHotplugID [(1, "b.img"), (9223372036854775807, "x.img"), (0, "a.img")]) ∧
    generateHotplugID [(9223372036854775807, "x.img")] = -9223372036854775808 ∧
    (cliVmHotplugAdd sampleQMP
        [(1, "b.img"), (9223372036854775807, "x.img"), (0, "a.img")] "c.img" 0).result
      = GoResult.nil ∧
    (cliVmHotplugAdd sampleQMP
        [(1, "b.img"), (9223372036854775807, "x.img"), (0, "a.img")] "c.img" 0).hotplug
      = [(1, "c.img"), (9223372036854775807, "x.img"), (0, "a.img")] := by
  refine ⟨by decide, by decide, by decide, by decide, by decide, by decide, by decide⟩

/-- C22 (amended): for a hotplug map whose keys are non-negative and below the
largest `int`, the generated ID is 0 when the map is empty and otherwise one
more than the highest key, hence no key of the map; when the add succeeds the
map gains exactly the entry that binds this ID to the filename and every other
key is bound as before; when `DriveAdd` or `USBDeviceAdd` fails the map is
unchanged. -/
theorem cliVmHotplugAdd_spec {Q : Type} (env : QMPEnv Q) (hotplug : HotplugMap)
    (filename : String) (q : Q)
    (hkeys : ∀ p ∈ hotplug, 0 ≤ p.1 ∧ p.1 < (2 : Int) ^ 63 - 1) :
    (hotplug = [] → generateHotplugID hotplug = 0) ∧
    (hotplug ≠ [] → ∃ p ∈ hotplug, (∀ r ∈ hotplug, r.1 ≤ p.1) ∧
      generateHotplugID hotplug = p.1 + 1) ∧
    (∀ p ∈ hotplug, p.1 ≠ generateHotplugID hotplug) ∧
    ((cliVmHotplugAdd env hotplug filename q).result = GoResult.nil →
      (cliVmHotplugAdd env hotplug filename q).hotplug
        = hotplug ++ [(generateHotplugID hotplug, filename)] ∧
      (cliVmHotplugAdd env hotplug filename q).hotplug.lookup (generateHotplugID hotplug)
        = some filename ∧
      (∀ k, k ≠ generateHotplugID hotplug →
        (cliVmHotplugAdd env hotplug filename q).hotplug.lookup k = hotplug.lookup k)) ∧
    ((cliVmHotplugAdd env hotplug filename q).result ≠ GoResult.nil →
      (cliVmHotplugAdd env hotplug filename q).hotplug = hotplug) := by
  obtain ⟨h1, h2, h3⟩ := nextHotplugID_spec hotplug 0 hkeys
  have hfresh : ∀ p ∈ hotplug, p.1 ≠ generateHotplugID hotplug := by
    intro p hp
    have := h2 p hp
    unfold generateHotplugID
    omega
  refine ⟨?_, ?_, hfresh, ?_, ?_⟩
  · intro he
    subst he
    rfl
  · intro hne
    obtain ⟨x, hx⟩ := List.exists_mem_of_ne_nil hotplug hne
    have hx0 := (hkeys x hx).1
    have hxlt := h2 x hx
    rcases h3 with h | ⟨p, hp, h⟩
    · omega
    · refine ⟨p, hp, ?_, h⟩
      intro r hr
      have := h2 r hr
      omega
  · intro hok
    have hout : (cliVmHotplugAdd env hotplug filename q).hotplug
        = hotplugSet hotplug (generateHotplugID hotplug) filename := by
      unfold cliVmHotplugAdd at hok ⊢
      rcases hd : env.DriveAdd ("hotplug" ++ Itoa (generateHotplugID hotplug)) filename q
        with ⟨r1, q1⟩
      cases r1 with
      | error e => simp [hd] at hok
      | ok x =>
        rcases hu : env.USBDeviceAdd ("hotplug" ++ Itoa (generateHotplugID hotplug)) q1
          with ⟨r2, q2⟩
        cases r2 with
        | error e => simp [hd, hu] at hok
        | ok y => simp [hd, hu]
    have hl := hotplugSet_lookup hotplug (generateHotplugID hotplug) filename
    rw [hout]
    exact ⟨hotplugSet_fresh hotplug _ filename hfresh, hl.1, hl.2⟩
  · intro herr
    unfold cliVmHotplugAdd at herr ⊢
    rcases hd : env.DriveAdd ("hotplug" ++ Itoa (generateHotplugID hotplug)) filename q
      with ⟨r1, q1⟩
    cases r1 with
    | error e => simp [hd]
    | ok x =>
      rcases hu : env.USBDeviceAdd ("hotplug" ++ Itoa (generateHotplugID hotplug)) q1
        with ⟨r2, q2⟩
      cases r2 with
      | error e => simp [hd, hu]
      | ok y => simp [hd, hu] at herr

/-- Witness of C22 (amended): a map with the keys 0 and 3 (visited as 3, 0)
gets the ID 4 for a new file, and a failing `DriveAdd` leaves it as it was. -/
theorem cliVmHotplugAdd_spec_witness :
    generateHotplugID [(3, "b.img"), (0, "a.img")] = (3, "b.img").1 + 1 ∧
    (cliVmHotplugAdd sampleQMP [(3, "b.img"), (0, "a.img")] "c.img" 0).hotplug
      = [(3, "b.img"), (0, "a.img")] ++ [(generateHotplugID [(3, "b.img"), (0, "a.img")],
          "c.img")] ∧
    (cliVmHotplugAdd sampleQMP [(3, "b.img"), (0, "a.img")] "missing.img" 0).hotplug
      = [(3, "b.img"), (0, "a.img")] :=
  ⟨by decide,
   ((cliVmHotplugAdd_spec sampleQMP [(3, "b.img"), (0, "a.img")] "c.img" 0
      (by decide)).2.2.2.1 (by decide)).1,
   (cliVmHotplugAdd_spec sampleQMP [(3, "b.img"), (0, "a.img")] "missing.img" 0
      (by decide)).2.2.2.2 (by decide)⟩

/-! ### Error returns of `NetworkConnect` and well-formed results of `processVMNet` -/

/-- The method `NetworkConnect` writes the VM only on the path that returns nil. -/
theorem NetworkConnect_nil_or_unchanged {W B : Type} (env : BridgeEnv W B) (vm : BaseVM)
    (pos : Int) (bridge : String) (vlan : Int) (w : W) :
    (NetworkConnect env vm pos bridge vlan w).result = GoResult.nil ∨
    (NetworkConnect env vm pos bridge vlan w).vm = vm := by
  unfold NetworkConnect
  repeat' split
  all_goals simp

/-- C23: whenever NetworkConnect does not return nil (bad position, new
bridge unresolved, old bridge unresolved, TapRemove failed, TapAdd failed), the
VM and so its network list are exactly as before the call; in particular when
the detach succeeded and the attach failed, the entry at the position still
records the old Bridge and the old VLAN, which is not the sentinel, although
TapRemove has been called for its tap on the old bridge and has succeeded. -/
theorem NetworkConnect_error_keeps_networks {W B : Type} (env : BridgeEnv W B) (vm : BaseVM)
    (pos : Int) (bridge : String) (vlan : Int) (w : W)
    (herr : (NetworkConnect env vm pos bridge vlan w).result ≠ GoResult.nil) :
    (NetworkConnect env vm pos bridge vlan w).vm = vm ∧
    (NetworkConnect env vm pos bridge vlan w).vm.Networks = vm.Networks ∧
    (∀ (net : NetConfig) (newBridge oldBridge : B) (w1 w2 w3 w4 : W) (e : String),
      0 ≤ pos → vm.Networks[pos.toNat]? = some net → net.VLAN ≠ env.DisconnectedVLAN →
      env.getBridge bridge w = (Except.ok newBridge, w1) →
      env.getBridge net.Bridge w1 = (Except.ok oldBridge, w2) →
      env.TapRemove oldBridge net.Tap w2 = (none, w3) →
      env.TapAdd newBridge net.Tap vlan false w3 = (some e, w4) →
      (NetworkConnect env vm pos bridge vlan w).result = GoResult.err e ∧
      (NetworkConnect env vm pos bridge vlan w).vm.Networks[pos.toNat]? = some net ∧
      (∃ entry, (NetworkConnect env vm pos bridge vlan w).vm.Networks[pos.toNat]? = some entry ∧
        entry.Bridge = net.Bridge ∧ entry.VLAN = net.VLAN ∧
        entry.VLAN ≠ env.DisconnectedVLAN) ∧
      BridgeCall.TapRemove oldBridge net.Tap
        ∈ (NetworkConnect env vm pos bridge vlan w).calls ∧
      (NetworkConnect env vm pos bridge vlan w).world = w4) := by
  have hvm : (NetworkConnect env vm pos bridge vlan w).vm = vm := by
    rcases NetworkConnect_nil_or_unchanged env vm pos bridge vlan w with h | h
    · exact absurd h herr
    · exact h
  refine ⟨hvm, by rw [hvm], ?_⟩
  intro net newBridge oldBridge w1 w2 w3 w4 e hpos hnet hconn h1 h2 h3 h4
  have hv := valid_position vm.Networks pos net hpos hnet
  have he := indexNetworks_valid vm.Networks pos net hpos hnet
  have hout : NetworkConnect env vm pos bridge vlan w =
      ⟨GoResult.err e, vm, w4,
        [BridgeCall.getBridge bridge, BridgeCall.getBridge net.Bridge,
          BridgeCall.TapRemove oldBridge net.Tap,
          BridgeCall.TapAdd newBridge net.Tap vlan false]⟩ := by
    simp [NetworkConnect, hv, he, hconn, h1, h2, h3, h4]
  rw [hout]
  exact ⟨rfl, hnet, ⟨net, hnet, rfl, rfl, hconn⟩, by simp, rfl⟩

/-- Witness of C23: the first network of the sample VM is moved to `br1`,
which refuses the attach: the entry still records `br0` and VLAN 100 while
`tap0` is on no bridge any more. -/
theorem NetworkConnect_error_keeps_networks_witness :
    (NetworkConnect specBridges sampleVM 0 "br1" 5 sampleWorld).vm.Networks
      = sampleVM.Networks ∧
    (NetworkConnect specBridges sampleVM 0 "br1" 5 sampleWorld).world.taps = [] :=
  ⟨(NetworkConnect_error_keeps_networks specBridges sampleVM 0 "br1" 5 sampleWorld
      (by decide)).2.1, by decide⟩

/-- C25: a NetConfig that processVMNet returns without error is well formed:
its Bridge is the bridge token or the default bridge and so, the default
bridge not being the empty string, is not empty; its Driver is `e1000` or a
token satisfying `isNetworkDriver`; its MAC is empty or the lower-casing of a
token satisfying `isMac`; its Tap, IP4, IP6 and Stats are zero. -/
theorem processVMNet_well_formed {A : Type} (env : NetEnv A) (spec : String) (a : A)
    (c : NetConfig) (hdefault : env.DEFAULT_BRIDGE ≠ "")
    (hok : (processVMNet env spec a).result = Except.ok c) :
    c.Bridge ≠ "" ∧
    (c.Driver = VM_NET_DRIVER_DEFAULT ∨ env.isNetworkDriver c.Driver = true) ∧
    (c.MAC = "" ∨ ∃ m, env.isMac m = true ∧ c.MAC = ToLower env m) ∧
    c.Tap = "" ∧ c.IP4 = "" ∧ c.IP6 = "" ∧ c.Stats = none := by
  cases hf : netFields env (Split spec) with
  | none =>
    have := congrArg NetSpecOutcome.result (processVMNet_too_many_fields env spec a hf)
    rw [hok] at this
    cases this
  | some t =>
    obtain ⟨b, v, m, d⟩ := t
    obtain ⟨hd, hm⟩ := processVMNet_ok_checks env spec a b v m d c hf hok
    have hacc := (processVMNet_accepts env spec a b v m d hf hd hm).1
    rw [hok] at hacc
    injection hacc with hc
    subst hc
    refine ⟨?_, ?_, ?_, rfl, rfl, rfl, rfl⟩
    · simp only [newNetConfig]
      split
      · exact hdefault
      · assumption
    · simp only [newNetConfig]
      by_cases h0 : d = ""
      · left
        rw [if_pos h0]
      · right
        rw [if_neg h0]
        rcases hd with h | h
        · exact absurd h h0
        · exact h
    · simp only [newNetConfig]
      rcases hm with h | h
      · left
        rw [h]
        rfl
      · right
        exact ⟨m, h, rfl⟩

/-- Witness of C25: the netspec `100` yields the default bridge and driver and
no MAC. -/
theorem processVMNet_well_formed_witness :
    (newNetConfig 100 "mega_bridge" "" "e1000").Bridge ≠ "" ∧
    (newNetConfig 100 "mega_bridge" "" "e1000").Driver = VM_NET_DRIVER_DEFAULT ∧
    (newNetConfig 100 "mega_bridge" "" "e1000").Tap = "" :=
  have h := processVMNet_well_formed specNetEnv "100" ⟨[], []⟩
    (newNetConfig 100 "mega_bridge" "" "e1000") (by decide) rfl
  ⟨h.1, by decide, h.2.2.2.1⟩

/-! ### Round trip between `NetConfig.String` and `processVMNet` -/

/-- The character of a decimal digit has that digit as its value. -/
theorem digitValue_digitChar (d : Nat) (hd : d < 10) :
    digitValue (Nat.digitChar d) = some d := by
  interval_cases d <;> decide

/-- Reading back the digits that `Nat.toDigitsCore` writes in base 10: the
number is appended, in decimal, to what has been read so far. -/
theorem parseDigits_toDigitsCore (fuel : Nat) :
    ∀ n, n < fuel → ∃ k, ∀ ds acc,
      parseDigits (Nat.toDigitsCore 10 fuel n ds) acc = parseDigits ds (acc * 10 ^ k + n) := by
  induction fuel with
  | zero =>
    intro n hn
    omega
  | succ fuel ih =>
    intro n hn
    by_cases h0 : n / 10 = 0
    · refine ⟨1, ?_⟩
      intro ds acc
      have hlt : n < 10 := by omega
      have hmod : n % 10 = n := Nat.mod_eq_of_lt hlt
      simp only [Nat.toDigitsCore, h0, if_true, parseDigits, hmod,
        digitValue_digitChar n hlt, pow_one]
    · have hdiv : n / 10 < fuel := by omega
      obtain ⟨k, hk⟩ := ih (n / 10) hdiv
      refine ⟨k + 1, ?_⟩
      intro ds acc
      have hmod : n % 10 < 10 := Nat.mod_lt _ (by decide)
      simp only [Nat.toDigitsCore, h0, if_false]
      rw [hk, parseDigits, digitValue_digitChar _ hmod]
      have hval : (acc * 10 ^ k + n / 10) * 10 + n % 10 = acc * 10 ^ (k + 1) + n := by
        have := Nat.div_add_mod n 10
        rw [pow_succ]
        nlinarith
      simp only [hval]

/-- The decimal digits of a number are at least one. -/
theorem toDigitsCore_ne_nil (fuel n : Nat) (ds : List Char) (h : ds ≠ [] ∨ 0 < fuel) :
    Nat.toDigitsCore 10 fuel n ds ≠ [] := by
  induction fuel generalizing n ds with
  | zero =>
    rcases h with h | h
    · simpa [Nat.toDigitsCore] using h
    · omega
  | succ fuel ih =>
    simp only [Nat.toDigitsCore]
    split
    · simp
    · exact ih _ _ (Or.inl (by simp))

/-- The decimal form of a natural number reads back as that number. -/
theorem parseUnsigned_toDigits (m : Nat) : parseUnsigned (Nat.toDigits 10 m) = some m := by
  have hne : Nat.toDigits 10 m ≠ [] := toDigitsCore_ne_nil (m + 1) m [] (Or.inr (by omega))
  obtain ⟨k, hk⟩ := parseDigits_toDigitsCore (m + 1) m (by omega)
  have hp : parseDigits (Nat.toDigits 10 m) 0 = some m := by
    unfold Nat.toDigits
    rw [hk [] 0]
    simp [parseDigits]
  unfold parseUnsigned
  have hemp : (Nat.toDigits 10 m).isEmpty = false := by
    cases hl : Nat.toDigits 10 m with
    | nil => exact absurd hl hne
    | cons c cs => rfl
  simp [hemp, hp]

/-- A list of characters that reads as a number does not start with a sign. -/
theorem parseUnsigned_head (c : Char) (cs : List Char) (m : Nat)
    (h : parseUnsigned (c :: cs) = some m) : c ≠ '-' ∧ c ≠ '+' := by
  have hd : digitValue c ≠ none := by
    intro hn
    simp [parseUnsigned, parseDigits, hn] at h
  constructor
  · intro hc
    subst hc
    exact hd (by decide)
  · intro hc
    subst hc
    exact hd (by decide)

/-- The functions `strconv.Itoa` and `strconv.Atoi` round trip on every value
of a 64-bit `int`. -/
theorem Atoi_Itoa (n : Int) (hlo : -(2 : Int) ^ 63 ≤ n) (hhi : n < (2 : Int) ^ 63) :
    Atoi (Itoa n) = some n := by
  cases n with
  | ofNat m =>
    have hl : (Itoa (Int.ofNat m)).toList = Nat.toDigits 10 m := rfl
    have hp := parseUnsigned_toDigits m
    have hm : m < 2 ^ 63 := by
      have : (m : Int) < (2 : Int) ^ 63 := hhi
      exact_mod_cast this
    unfold Atoi
    rw [hl]
    split
    · rename_i heq
      rw [heq] at hp
      simp [parseUnsigned] at hp
    · rename_i cs heq
      rw [heq] at hp
      exact absurd rfl (parseUnsigned_head _ _ _ hp).1
    · rename_i cs heq
      rw [heq] at hp
      exact absurd rfl (parseUnsigned_head _ _ _ hp).2
    · simp only [hp]
      rw [if_pos hm]
      rfl
  | negSucc m =>
    have hl : (Itoa (Int.negSucc m)).toList = '-' :: Nat.toDigits 10 (m + 1) := rfl
    have hp := parseUnsigned_toDigits (m + 1)
    have hm : m + 1 ≤ 2 ^ 63 := by
      have h1 : -(2 : Int) ^ 63 ≤ Int.negSucc m := hlo
      have h2 : Int.negSucc m = -((m : Int) + 1) := Int.negSucc_eq m
      rw [h2] at h1
      have h3 : (m : Int) + 1 ≤ (2 : Int) ^ 63 := by omega
      exact_mod_cast h3
    unfold Atoi
    rw [hl]
    simp only [hp, hm, if_true]
    congr 1

/-- C24: for every NetConfig with a non-empty comma-free Bridge, a VLAN that
is a Go `int`, and a MAC that is empty or a lower-case comma-free string
satisfying `isMac`, processVMNet applied to the rendering of `NetConfig.String`
succeeds and returns the same Bridge, VLAN and MAC, with the default driver.
The functions `isMac` and `isNetworkDriver` live outside `src/`; that they do
not take the decimal text of the VLAN for a MAC or a driver name is assumed of
them (it is used when the MAC is empty and the rendering has two fields). -/
theorem processVMNet_netConfigString {A : Type} (env : NetEnv A) (a : A) (n : NetConfig)
    (hb : n.Bridge ≠ "") (hbc : commaFree n.Bridge)
    (hlo : -(2 : Int) ^ 63 ≤ n.VLAN) (hhi : n.VLAN < (2 : Int) ^ 63)
    (hmac : n.MAC = "" ∨
      (env.isMac n.MAC = true ∧ ToLower env n.MAC = n.MAC ∧ commaFree n.MAC))
    (hvmac : env.isMac (Itoa n.VLAN) = false)
    (hvdrv : env.isNetworkDriver (Itoa n.VLAN) = false) :
    ∃ c, (processVMNet env (netConfigString n) a).result = Except.ok c ∧
      c.Bridge = n.Bridge ∧ c.VLAN = n.VLAN ∧ c.MAC = n.MAC ∧
      c.Driver = VM_NET_DRIVER_DEFAULT := by
  have hv := Atoi_Itoa n.VLAN hlo hhi
  have hvc : commaFree (Itoa n.VLAN) := Atoi_commaFree _ _ hv
  by_cases hm0 : n.MAC = ""
  · have hstr : netConfigString n = Join [n.Bridge, Itoa n.VLAN] "," := by
      simp [netConfigString, hb, hm0]
    have hs : Split (Join [n.Bridge, Itoa n.VLAN] ",") = [n.Bridge, Itoa n.VLAN] :=
      Split_Join _ (by simp) (by simp [hbc, hvc])
    have h := processVMNet_integer_vlan env (Join [n.Bridge, Itoa n.VLAN] ",") a
      n.Bridge (Itoa n.VLAN) "" "" n.VLAN
      (by rw [hs]; simp [netFields, hvmac, hvdrv]) (Or.inl rfl) (Or.inl rfl) hv
    rw [hstr]
    refine ⟨_, h, ?_, rfl, ?_, rfl⟩
    · simp [newNetConfig, hb]
    · simp only [newNetConfig, hm0]
      rfl
  · rcases hmac with h0 | ⟨hismac, hlower, hmc⟩
    · exact absurd h0 hm0
    · have hstr : netConfigString n = Join [n.Bridge, Itoa n.VLAN, n.MAC] "," := by
        simp [netConfigString, hb, hm0]
      have hs : Split (Join [n.Bridge, Itoa n.VLAN, n.MAC] ",")
          = [n.Bridge, Itoa n.VLAN, n.MAC] :=
        Split_Join _ (by simp) (by simp [hbc, hvc, hmc])
      have h := processVMNet_integer_vlan env (Join [n.Bridge, Itoa n.VLAN, n.MAC] ",") a
        n.Bridge (Itoa n.VLAN) n.MAC "" n.VLAN
        (by rw [hs]; simp [netFields, hismac]) (Or.inl rfl) (Or.inr hismac) hv
      rw [hstr]
      refine ⟨_, h, ?_, rfl, ?_, rfl⟩
      · simp [newNetConfig, hb]
      · simp only [newNetConfig]
        exact hlower

/-- Witness of C24: the first network of the sample VM renders as
`br0,100,00:11:22:33:44:55` and parses back to its Bridge, VLAN and MAC. -/
theorem processVMNet_netConfigString_witness :
    netConfigString
      { VLAN := 100, Bridge := "br0", Tap := "tap0", MAC := "00:11:22:33:44:55",
        Driver := "e1000", IP4 := "", IP6 := "", Stats := none }
      = "br0,100,00:11:22:33:44:55" ∧
    ∃ c, (processVMNet specNetEnv
        (netConfigString
          { VLAN := 100, Bridge := "br0", Tap := "tap0", MAC := "00:11:22:33:44:55",
            Driver := "e1000", IP4 := "", IP6 := "", Stats := none })
        ⟨[], []⟩).result = Except.ok c ∧
      c.Bridge = "br0" ∧ c.VLAN = 100 ∧ c.MAC = "00:11:22:33:44:55" ∧
      c.Driver = VM_NET_DRIVER_DEFAULT :=
  ⟨by decide,
   processVMNet_netConfigString specNetEnv ⟨[], []⟩
    { VLAN := 100, Bridge := "br0", Tap := "tap0", MAC := "00:11:22:33:44:55",
      Driver := "e1000", IP4 := "", IP6 := "", Stats := none }
    (by decide) (by decide) (by decide) (by decide)
    (Or.inr ⟨by decide, by decide, by decide⟩) (by decide) (by decide)⟩

end Minimega
